import Mathlib

/-!
Verification of the gemini-cli-openai worker core: the JSON-Schema →
Gemini-schema converter, the generation-config builder, tool resolution
(`GenerationConfigValidator` in the source), and the OpenAI stream
transformer (`createOpenAIStreamTransformer` in `stream-transformer.ts`).

JavaScript values manipulated by the source are modelled by the `JSON`
inductive below; JS objects are ordered association lists (insertion
order), JS `undefined` is `Option.none` at the places where the source
distinguishes it, and JS truthiness is `jsTruthy`.
-/

/-- A JSON/JS value. Objects are ordered association lists, matching JS
object insertion order (real JS objects never hold duplicate keys; the
operations below implement JS assignment/lookup semantics on that
representation). Numbers are modelled as integers: every number the
verified code paths inspect or produce is integral. -/
inductive JSON where
  | null : JSON
  | bool : Bool → JSON
  | num : Int → JSON
  | str : String → JSON
  | arr : List JSON → JSON
  | obj : List (String × JSON) → JSON

mutual

/-- Structural equality test on JSON values (decidable equality is not
derivable for this nested inductive, so it is spelt out). -/
def JSON.beq : JSON → JSON → Bool
  | .null, .null => true
  | .bool a, .bool b => a = b
  | .num a, .num b => a = b
  | .str a, .str b => a = b
  | .arr a, .arr b => JSON.beqList a b
  | .obj a, .obj b => JSON.beqFields a b
  | _, _ => false

/-- Elementwise `JSON.beq` on arrays. -/
def JSON.beqList : List JSON → List JSON → Bool
  | [], [] => true
  | x :: xs, y :: ys => JSON.beq x y && JSON.beqList xs ys
  | _, _ => false

/-- Elementwise `JSON.beq` on object entry lists. -/
def JSON.beqFields : List (String × JSON) → List (String × JSON) → Bool
  | [], [] => true
  | (k, v) :: xs, (l, w) :: ys => k = l && JSON.beq v w && JSON.beqFields xs ys
  | _, _ => false

end

mutual

theorem JSON.beq_iff : (a b : JSON) → (JSON.beq a b = true ↔ a = b)
  | .null, b => by cases b <;> simp [JSON.beq]
  | .bool x, b => by cases b <;> simp [JSON.beq]
  | .num x, b => by cases b <;> simp [JSON.beq]
  | .str x, b => by cases b <;> simp [JSON.beq]
  | .arr xs, b => by
      cases b <;> simp [JSON.beq]
      exact JSON.beqList_iff xs _
  | .obj fs, b => by
      cases b <;> simp [JSON.beq]
      exact JSON.beqFields_iff fs _

theorem JSON.beqList_iff : (xs ys : List JSON) → (JSON.beqList xs ys = true ↔ xs = ys)
  | [], ys => by cases ys <;> simp [JSON.beqList]
  | x :: xs, [] => by simp [JSON.beqList]
  | x :: xs, y :: ys => by
      simp [JSON.beqList, JSON.beq_iff x y, JSON.beqList_iff xs ys]

theorem JSON.beqFields_iff :
    (xs ys : List (String × JSON)) → (JSON.beqFields xs ys = true ↔ xs = ys)
  | [], ys => by cases ys <;> simp [JSON.beqFields]
  | x :: xs, [] => by simp [JSON.beqFields]
  | (k, v) :: xs, (l, w) :: ys => by
      simp [JSON.beqFields, JSON.beq_iff v w, JSON.beqFields_iff xs ys, and_assoc]

end

instance : DecidableEq JSON :=
  fun a b => decidable_of_iff (JSON.beq a b = true) (JSON.beq_iff a b)

/-- JS property lookup on an object's entry list (`o[k]`); `none` is JS
`undefined`. -/
def jsGet (fields : List (String × JSON)) (k : String) : Option JSON :=
  (fields.find? (fun p => p.1 = k)).map Prod.snd

/-- JS `k in o` test on an object's entry list. -/
def jsHasKey (fields : List (String × JSON)) (k : String) : Bool :=
  fields.any (fun p => p.1 = k)

/-- JS property access `v.k`: objects look the key up, every other value
(including arrays, whose own keys are numeric indices) yields `undefined`. -/
def jsGetField (v : JSON) (k : String) : Option JSON :=
  match v with
  | .obj fields => jsGet fields k
  | _ => .none

/-- JS truthiness of a value. -/
def jsTruthy : JSON → Bool
  | .null => false
  | .bool b => b
  | .num n => n ≠ 0
  | .str s => s ≠ ""
  | .arr _ => true
  | .obj _ => true

/-- JS property assignment `o[k] = v`: an existing key keeps its position
and gets the new value, a new key is appended. -/
def jsAssign (fields : List (String × JSON)) (k : String) (v : JSON) :
    List (String × JSON) :=
  if jsHasKey fields k then
    fields.map (fun p => if p.1 = k then (k, v) else p)
  else
    fields ++ [(k, v)]

/-- JS `delete o[k]`: the key disappears, the order of the rest is kept. -/
def jsDelete (fields : List (String × JSON)) (k : String) :
    List (String × JSON) :=
  fields.filter (fun p => p.1 ≠ k)

/-- JS `String.prototype.toLowerCase` (on the ASCII range the source
compares against). `String.toLower` itself does not reduce in the kernel,
so the character list is mapped directly. -/
def jsToLower (s : String) : String :=
  String.mk (s.data.map Char.toLower)

/-- Helper for `jsStrIncludes`: does `pat` occur as a contiguous block of
`s`? -/
def jsInfixCheck (pat : List Char) : List Char → Bool
  | [] => pat.isEmpty
  | c :: rest => pat.isPrefixOf (c :: rest) || jsInfixCheck pat rest

/-- JS `s.includes(pat)` (substring containment). -/
def jsStrIncludes (s pat : String) : Bool :=
  jsInfixCheck pat.data s.data

/-- JS `s.startsWith(pat)` (`String.startsWith` itself does not reduce in
the kernel, so this works on character lists). -/
def jsStrStartsWith (s pat : String) : Bool :=
  pat.data.isPrefixOf s.data

/-- Hex digit for `jsonStringify`'s control-character escapes. -/
def hexDigit (n : Nat) : Char :=
  if n < 10 then Char.ofNat ('0'.toNat + n) else Char.ofNat ('a'.toNat + n - 10)

/-- One character of JS `JSON.stringify` string output. -/
def jsonEscapeChar (c : Char) : String :=
  if c = '"' then "\\\""
  else if c = '\\' then "\\\\"
  else if c = '\n' then "\\n"
  else if c = '\r' then "\\r"
  else if c = '\t' then "\\t"
  else if c = Char.ofNat 8 then "\\b"
  else if c = Char.ofNat 12 then "\\f"
  else if c.toNat < 32 then
    String.mk ['\\', 'u', '0', '0', hexDigit (c.toNat / 16), hexDigit (c.toNat % 16)]
  else String.mk [c]

/-- JS `JSON.stringify` of a string literal. -/
def jsonQuote (s : String) : String :=
  "\"" ++ String.join (s.data.map jsonEscapeChar) ++ "\""

mutual

/-- JS `JSON.stringify` on our JSON values (values reaching it never hold
`undefined`, so no key dropping happens here). -/
def jsonStringify : JSON → String
  | .null => "null"
  | .bool true => "true"
  | .bool false => "false"
  | .num n => toString n
  | .str s => jsonQuote s
  | .arr xs => "[" ++ jsonStringifyList xs ++ "]"
  | .obj fs => "\x7b" ++ jsonStringifyFields fs ++ "\x7d"

/-- Comma-separated serialization of array elements. -/
def jsonStringifyList : List JSON → String
  | [] => ""
  | [x] => jsonStringify x
  | x :: y :: rest => jsonStringify x ++ "," ++ jsonStringifyList (y :: rest)

/-- Comma-separated serialization of object entries. -/
def jsonStringifyFields : List (String × JSON) → String
  | [] => ""
  | [(k, v)] => jsonQuote k ++ ":" ++ jsonStringify v
  | (k, v) :: e :: rest =>
      jsonQuote k ++ ":" ++ jsonStringify v ++ "," ++ jsonStringifyFields (e :: rest)

end

example : jsonStringify (.obj [("a", .num 1), ("b", .str "x")]) = "\x7b\"a\":1,\"b\":\"x\"\x7d" := by rfl
example : jsStrIncludes "gemini-2.5-flash" "flash" = true := by decide
example : jsStrIncludes "gemini-2.5-pro" "flash" = false := by decide
example : jsToLower "STRING" = "string" := by decide

/-!
Schema converter (`GenerationConfigValidator.toGeminiType`,
`normalizeProperties`, `stripUnsupportedKeys`,
`convertJSONSchemaToGeminiSchema` in the source).
-/

/-- Lookup in the `switch` of `toGeminiType` (the scrutinee is already
lowercased). -/
def geminiTypeOfLower (s : String) : Option String :=
  if s = "object" then some "OBJECT"
  else if s = "string" then some "STRING"
  else if s = "number" then some "NUMBER"
  else if s = "integer" then some "INTEGER"
  else if s = "boolean" then some "BOOLEAN"
  else if s = "array" then some "ARRAY"
  else none

mutual

/-- `toGeminiType`: an array-valued type recurses on its first entry that
is not the string `"null"` (JS `find((t) => t !== "null")`; an exhausted
`find` yields `undefined`, which the recursive call maps to the `switch`
default, `undefined`); a string is lowercased and looked up; anything else
falls to the `switch` default. The `find`-then-recurse of the source is
spelt as the structural walk `toGeminiTypeFind` (`toGeminiType_arr` below
proves the two presentations equal). -/
def toGeminiType (t : JSON) : Option String :=
  match t with
  | .arr ts => toGeminiTypeFind ts
  | .str s => geminiTypeOfLower (jsToLower s)
  | _ => none

/-- `ts.find((t) => t !== "null")` composed with `toGeminiType`. -/
def toGeminiTypeFind : List JSON → Option String
  | [] => none
  | t :: rest => if t ≠ JSON.str "null" then toGeminiType t else toGeminiTypeFind rest

end

theorem toGeminiType_arr (ts : List JSON) :
    toGeminiType (.arr ts) =
      match ts.find? (fun x => x ≠ JSON.str "null") with
      | some t1 => toGeminiType t1
      | none => none := by
  rw [toGeminiType]
  induction ts with
  | nil => rfl
  | cons t rest ih =>
      rw [toGeminiTypeFind]
      by_cases h : t = JSON.str "null"
      · subst h
        simpa using ih
      · simp [List.find?_cons, h]

/-- One step of `normalizeProperties`' loop over an array-shaped
`properties` value: a `[name, schema]` tuple (length ≥ 2, string first
entry), a `{key, value}` record, or a `{name, schema}` record performs a
JS assignment into the accumulator object; every other item is skipped. -/
def normStep (acc : List (String × JSON)) (item : JSON) : List (String × JSON) :=
  match item with
  | .arr (.str k :: v :: _) => jsAssign acc k v
  | .arr _ => acc
  | .obj fs =>
      if jsHasKey fs "key" && jsHasKey fs "value" then
        match jsGet fs "key" with
        | some (.str k) => jsAssign acc k ((jsGet fs "value").getD .null)
        | _ => acc
      else if jsHasKey fs "name" && jsHasKey fs "schema" then
        match jsGet fs "name" with
        | some (.str k) => jsAssign acc k ((jsGet fs "schema").getD .null)
        | _ => acc
      else acc
  | _ => acc

/-- `normalizeProperties`: an array is folded through `normStep` into a
fresh object, an object passes through, and every other value (falsy
values and non-objects) yields `undefined`. -/
def normalizeProperties (input : JSON) : Option (List (String × JSON)) :=
  match input with
  | .arr items => some (items.foldl normStep [])
  | .obj fs => some fs
  | _ => none

/-- The allow-list of `stripUnsupportedKeys`. -/
def geminiAllowList : List String :=
  ["type", "description", "properties", "items", "required", "enum", "format", "nullable"]

/-- `stripUnsupportedKeys`: drop `$`-prefixed keys and everything outside
the allow-list, keeping order and values. -/
def stripUnsupportedKeys (fields : List (String × JSON)) : List (String × JSON) :=
  fields.filter (fun p => !(jsStrStartsWith p.1 "$") && geminiAllowList.contains p.1)

theorem jsGet_sizeOf {fs : List (String × JSON)} {k : String} {v : JSON}
    (h : jsGet fs k = some v) : sizeOf v < sizeOf fs := by
  unfold jsGet at h
  cases hf : fs.find? (fun p => p.1 = k) with
  | none => simp [hf] at h
  | some p =>
      have hm := List.mem_of_find?_eq_some hf
      have hlt := List.sizeOf_lt_of_mem hm
      cases p with
      | mk a b =>
          simp [hf] at h
          subst h
          simp only [Prod.mk.sizeOf_spec] at hlt
          omega

theorem jsHasKey_jsGet_isSome {fs : List (String × JSON)} {k : String}
    (h : jsHasKey fs k = true) : ∃ v, jsGet fs k = some v := by
  unfold jsHasKey at h
  unfold jsGet
  rcases List.any_eq_true.mp h with ⟨p, hp, hk⟩
  have : (fs.find? (fun p => p.1 = k)).isSome := by
    apply List.find?_isSome.mpr
    exact ⟨p, hp, hk⟩
  cases hf : fs.find? (fun p => p.1 = k) with
  | none => rw [hf] at this; simp at this
  | some q => exact ⟨q.2, by simp⟩

theorem jsAssign_mem {acc : List (String × JSON)} {k n : String} {v w : JSON}
    (h : (n, v) ∈ jsAssign acc k w) : (n, v) ∈ acc ∨ v = w := by
  unfold jsAssign at h
  by_cases hk : jsHasKey acc k = true
  · rw [if_pos hk] at h
    rcases List.mem_map.mp h with ⟨p, hp, he⟩
    by_cases hpk : p.1 = k
    · rw [if_pos hpk] at he
      right
      exact (Prod.mk.injEq _ _ _ _ ▸ he).2.symm
    · rw [if_neg hpk] at he
      left; exact he ▸ hp
  · rw [if_neg hk] at h
    rcases List.mem_append.mp h with h1 | h1
    · left; exact h1
    · right
      have h2 : (n, v) = (k, w) := List.mem_singleton.mp h1
      exact ((Prod.mk.injEq _ _ _ _) ▸ h2).2

theorem normStep_mem {acc : List (String × JSON)} {item : JSON} {n : String} {v : JSON}
    (h : (n, v) ∈ normStep acc item) : (n, v) ∈ acc ∨ sizeOf v < sizeOf item := by
  match item with
  | .null | .bool _ | .num _ | .str _ => simp [normStep] at h; left; exact h
  | .arr ts =>
      match ts with
      | [] => simp [normStep] at h; left; exact h
      | [x] =>
          cases x <;> simp [normStep] at h <;> left <;> exact h
      | x :: y :: rest =>
          cases x with
          | str k =>
              simp only [normStep] at h
              rcases jsAssign_mem h with h1 | h1
              · left; exact h1
              · right
                subst h1
                have : sizeOf v < sizeOf (JSON.str k :: v :: rest) :=
                  List.sizeOf_lt_of_mem (by simp)
                simp only [JSON.arr.sizeOf_spec]
                omega
          | null => simp [normStep] at h; left; exact h
          | bool b => simp [normStep] at h; left; exact h
          | num m => simp [normStep] at h; left; exact h
          | arr l => simp [normStep] at h; left; exact h
          | obj l => simp [normStep] at h; left; exact h
  | .obj fs =>
      simp only [normStep] at h
      by_cases h1 : (jsHasKey fs "key" && jsHasKey fs "value") = true
      · rw [if_pos h1] at h
        cases hg : jsGet fs "key" with
        | none => rw [hg] at h; left; exact h
        | some kv =>
            rw [hg] at h
            cases kv with
            | str k =>
                rcases jsAssign_mem h with h2 | h2
                · left; exact h2
                · right
                  have hv : jsHasKey fs "value" = true := by
                    rw [Bool.and_eq_true] at h1; exact h1.2
                  rcases jsHasKey_jsGet_isSome hv with ⟨w, hw⟩
                  rw [hw] at h2
                  simp at h2
                  subst h2
                  have := jsGet_sizeOf hw
                  simp only [JSON.obj.sizeOf_spec]
                  omega
            | null => left; exact h
            | bool b => left; exact h
            | num m => left; exact h
            | arr l => left; exact h
            | obj l => left; exact h
      · rw [if_neg h1] at h
        by_cases h2 : (jsHasKey fs "name" && jsHasKey fs "schema") = true
        · rw [if_pos h2] at h
          cases hg : jsGet fs "name" with
          | none => rw [hg] at h; left; exact h
          | some kv =>
              rw [hg] at h
              cases kv with
              | str k =>
                  rcases jsAssign_mem h with h3 | h3
                  · left; exact h3
                  · right
                    have hv : jsHasKey fs "schema" = true := by
                      rw [Bool.and_eq_true] at h2; exact h2.2
                    rcases jsHasKey_jsGet_isSome hv with ⟨w, hw⟩
                    rw [hw] at h3
                    simp at h3
                    subst h3
                    have := jsGet_sizeOf hw
                    simp only [JSON.obj.sizeOf_spec]
                    omega
              | null => left; exact h
              | bool b => left; exact h
              | num m => left; exact h
              | arr l => left; exact h
              | obj l => left; exact h
        · rw [if_neg h2] at h; left; exact h

theorem foldl_normStep_mem {items : List JSON} {acc : List (String × JSON)}
    {n : String} {v : JSON} (h : (n, v) ∈ List.foldl normStep acc items) :
    (n, v) ∈ acc ∨ ∃ it ∈ items, sizeOf v < sizeOf it := by
  induction items generalizing acc with
  | nil => simp at h; left; exact h
  | cons it rest ih =>
      simp only [List.foldl_cons] at h
      rcases ih h with h1 | h1
      · rcases normStep_mem h1 with h2 | h2
        · left; exact h2
        · right; exact ⟨it, by simp, h2⟩
      · rcases h1 with ⟨jt, hjt, hs⟩
        right; exact ⟨jt, by simp [hjt], hs⟩

theorem normalizeProperties_sizeOf {P : JSON} {props : List (String × JSON)}
    (h : normalizeProperties P = some props) {n : String} {v : JSON}
    (hm : (n, v) ∈ props) : sizeOf v < sizeOf P := by
  match P with
  | .null | .bool _ | .num _ | .str _ => simp [normalizeProperties] at h
  | .arr items =>
      simp only [normalizeProperties, Option.some.injEq] at h
      subst h
      rcases foldl_normStep_mem hm with h1 | h1
      · simp at h1
      · rcases h1 with ⟨it, hit, hs⟩
        have := List.sizeOf_lt_of_mem hit
        simp only [JSON.arr.sizeOf_spec]
        omega
  | .obj fs =>
      simp only [normalizeProperties, Option.some.injEq] at h
      subst h
      have := List.sizeOf_lt_of_mem hm
      simp only [JSON.obj.sizeOf_spec, Prod.mk.sizeOf_spec] at *
      omega

/-- The non-recursive tail of `convertJSONSchemaToGeminiSchema`: starting
from the allow-list-restricted copy of `src`, map/delete `type`, set
`nullable` when the original `type` array contains `"null"`, overwrite
`properties` when the recursively converted mapping (`convertedProps`,
passed in) is non-empty, overwrite `items` when its conversion
(`convertedItems`) succeeded, filter `required` to strings, and copy
`enum` / string-typed `description` / string-typed `format`. -/
def assembleGeminiSchema (src : List (String × JSON))
    (convertedProps : Option (List (String × JSON)))
    (convertedItems : Option JSON) : List (String × JSON) :=
  let f0 := stripUnsupportedKeys src
  let f1 :=
    match jsGet f0 "type" with
    | some tv =>
        match toGeminiType tv with
        | some m => jsAssign f0 "type" (.str m)
        | none => jsDelete f0 "type"
    | none => f0
  let f2 :=
    match jsGet src "type" with
    | some (.arr ts) =>
        if ts.any (fun t => t = JSON.str "null") then jsAssign f1 "nullable" (.bool true)
        else f1
    | _ => f1
  let f3 :=
    match convertedProps with
    | some cps => if cps.isEmpty then f2 else jsAssign f2 "properties" (.obj cps)
    | none => f2
  let f4 :=
    match convertedItems with
    | some c => jsAssign f3 "items" c
    | none => f3
  let f5 :=
    match jsGet src "required" with
    | some (.arr rs) =>
        jsAssign f4 "required"
          (.arr (rs.filter (fun r => match r with | .str _ => true | _ => false)))
    | _ => f4
  let f6 :=
    match jsGet src "enum" with
    | some (.arr es) => jsAssign f5 "enum" (.arr es)
    | _ => f5
  let f7 :=
    match jsGet src "description" with
    | some (.str d) => jsAssign f6 "description" (.str d)
    | _ => f6
  match jsGet src "format" with
  | some (.str fm) => jsAssign f7 "format" (.str fm)
  | _ => f7

/-- `convertJSONSchemaToGeminiSchema`. Falsy and non-object input yields
`undefined`. An array input passes the JS `typeof input === "object"`
guard but none of its (numeric) keys survive the allow-list and none of
the named lookups hit, so it converts to the empty object. For an object,
the converted `properties` mapping is built by folding JS assignments of
the recursively converted sub-schemas (dropping ones whose conversion is
`undefined`), `items` converts its first element when array-shaped and
itself otherwise, and `assembleGeminiSchema` puts the result together. -/
def convertJSONSchemaToGeminiSchema (input : JSON) : Option JSON :=
  match input with
  | .null => none
  | .bool _ => none
  | .num _ => none
  | .str _ => none
  | .arr _ => some (.obj [])
  | .obj src =>
      let cp : Option (List (String × JSON)) :=
        match h1 : jsGet src "properties" with
        | some P =>
            match h2 : normalizeProperties P with
            | some props =>
                some (props.attach.foldl
                  (fun acc (x : {p : String × JSON // p ∈ props}) =>
                    match convertJSONSchemaToGeminiSchema x.1.2 with
                    | some c => jsAssign acc x.1.1 c
                    | none => acc) [])
            | none => none
        | none => none
      let ci : Option JSON :=
        match h3 : jsGet src "items" with
        | some (.arr (i0 :: _)) => convertJSONSchemaToGeminiSchema i0
        | some (.arr []) => none
        | some iv => convertJSONSchemaToGeminiSchema iv
        | none => none
      some (.obj (assembleGeminiSchema src cp ci))
termination_by sizeOf input
decreasing_by
  · obtain ⟨⟨n, v⟩, hx⟩ := x
    have hp := jsGet_sizeOf h1
    have hs := normalizeProperties_sizeOf h2 hx
    simp only [JSON.obj.sizeOf_spec]
    simp only at hs ⊢
    omega
  · rename_i tail
    have hi := jsGet_sizeOf h3
    have h0 := List.sizeOf_lt_of_mem (List.mem_cons_self i0 tail)
    simp only [JSON.arr.sizeOf_spec] at hi
    simp only [JSON.obj.sizeOf_spec]
    omega
  · have hi := jsGet_sizeOf h3
    simp only [JSON.obj.sizeOf_spec]
    omega

/-- Proof-irrelevant form of the converted-properties fold of
`convertJSONSchemaToGeminiSchema` (the definition itself folds over
`props.attach` to justify termination). -/
def convertPropsMap (props : List (String × JSON)) : List (String × JSON) :=
  props.foldl
    (fun acc p =>
      match convertJSONSchemaToGeminiSchema p.2 with
      | some c => jsAssign acc p.1 c
      | none => acc) []

/-- The converted-properties computation of
`convertJSONSchemaToGeminiSchema` on an object's entries. -/
def cpOf (src : List (String × JSON)) : Option (List (String × JSON)) :=
  match jsGet src "properties" with
  | some P =>
      match normalizeProperties P with
      | some props => some (convertPropsMap props)
      | none => none
  | none => none

/-- The converted-items computation of `convertJSONSchemaToGeminiSchema`
on an object's entries. -/
def ciOf (src : List (String × JSON)) : Option JSON :=
  match jsGet src "items" with
  | some (.arr (i0 :: _)) => convertJSONSchemaToGeminiSchema i0
  | some (.arr []) => none
  | some iv => convertJSONSchemaToGeminiSchema iv
  | none => none

theorem foldl_attach_val {α β : Type _} (l : List α) (f : β → α → β) (b : β) :
    l.attach.foldl (fun acc x => f acc x.1) b = l.foldl f b := by
  induction l generalizing b with
  | nil => rfl
  | cons a t ih =>
      rw [List.attach_cons, List.foldl_cons, List.foldl_map, List.foldl_cons]
      exact ih _

/-- Unfolding equation for `convertJSONSchemaToGeminiSchema` on objects. -/
theorem convertJSONSchema_obj (src : List (String × JSON)) :
    convertJSONSchemaToGeminiSchema (.obj src) =
      some (.obj (assembleGeminiSchema src (cpOf src) (ciOf src))) := by
  rw [convertJSONSchemaToGeminiSchema]
  unfold cpOf ciOf
  have hcp : ∀ (a b : Option (List (String × JSON))) (c d : Option JSON), a = b → c = d →
      some (JSON.obj (assembleGeminiSchema src a c)) =
        some (JSON.obj (assembleGeminiSchema src b d)) := by
    intro a b c d h1 h2; rw [h1, h2]
  apply hcp
  · split
    · rename_i P h1
      split
      · rename_i props h2
        simp only [h1, h2]
        rw [foldl_attach_val props
          (fun acc p =>
            match convertJSONSchemaToGeminiSchema p.2 with
            | some c => jsAssign acc p.1 c
            | none => acc) []]
        rfl
      · rename_i h2
        simp only [h1, h2]
    · rename_i h1
      simp only [h1]
  · split
    · rename_i i0 tail h3
      rw [h3]
    · rename_i h3
      rw [h3]
    · rename_i iv hne1 hne2 h3
      rw [h3]
      cases iv with
      | arr l =>
          cases l with
          | nil => exact absurd rfl hne2
          | cons a t => exact absurd rfl (hne1 a t)
      | null => rfl
      | bool b => rfl
      | num n => rfl
      | str s => rfl
      | obj o => rfl
    · rename_i h3
      rw [h3]

/-!
Generation config builder and tool resolution
(`GenerationConfigValidator.mapEffortToThinkingBudget`,
`isValidEffortLevel`, `validateThinkingBudget`, `createValidatedConfig`,
`createValidateTools`, `createFinalToolConfiguration` in the source).
-/

/-- One entry of the model capability table (`geminiCliModels` in the
source's `models` module): only the `thinking` flag is consumed by the
verified code. -/
structure ModelInfo where
  thinking : Bool

/-- `DEFAULT_THINKING_BUDGET` from the source's constants module: the
sentinel `-1` meaning dynamic allocation (the source's own comments at
its uses read `// -1`, and the spec fixes the sentinel to `-1`). -/
def DEFAULT_THINKING_BUDGET : Int := -1

/-- Modelled from the spec: the model capability table `geminiCliModels`
lives in a `models` module that is not part of the given sources; per the
spec's boundary contract it is a map `modelId -> {thinking: bool, ...}`
where a missing entry means `thinking = false`. All functions below take
the table as a parameter `models`; this concrete instance follows the
README's supported-model table (all three listed models have thinking
support) and is used by witnesses. -/
def geminiCliModels : String → Option ModelInfo := fun id =>
  if id = "gemini-2.5-pro" ∨ id = "gemini-2.5-flash" ∨ id = "gemini-2.5-flash-lite" then
    some ⟨true⟩
  else
    none

/-- The `modelInfo?.thinking` access with a missing entry being falsy. -/
def modelThinking (models : String → Option ModelInfo) (modelId : String) : Bool :=
  match models modelId with
  | some mi => mi.thinking
  | none => false

/-- The shape of `REASONING_EFFORT_BUDGETS` from the source's constants
module: fixed budgets at `none`/`low`, and a two-class table (model id
containing `"flash"` versus not) at `medium`/`high`. -/
structure ReasoningEffortBudgets where
  noneBudget : Int
  lowBudget : Int
  mediumFlash : Int
  mediumDefault : Int
  highFlash : Int
  highDefault : Int

/-- Modelled from the spec: the concrete `REASONING_EFFORT_BUDGETS` values
live in a constants module that is not part of the given sources. The
spec fixes only the table's shape (fixed values at none/low, and distinct
flash/default budgets at medium and high); these concrete values satisfy
that shape and are used by witnesses. -/
def REASONING_EFFORT_BUDGETS : ReasoningEffortBudgets :=
  ⟨0, 1024, 12288, 8192, 24576, 32768⟩

/-- `mapEffortToThinkingBudget`: `isFlashModel` is
`modelId.includes("flash")`; the switch has a defensive default falling
back to `DEFAULT_THINKING_BUDGET`. -/
def mapEffortToThinkingBudget (B : ReasoningEffortBudgets) (effort : String)
    (modelId : String) : Int :=
  let isFlashModel := jsStrIncludes modelId "flash"
  if effort = "none" then B.noneBudget
  else if effort = "low" then B.lowBudget
  else if effort = "medium" then
    if isFlashModel then B.mediumFlash else B.mediumDefault
  else if effort = "high" then
    if isFlashModel then B.highFlash else B.highDefault
  else DEFAULT_THINKING_BUDGET

/-- `isValidEffortLevel`: a string among none/low/medium/high. -/
def isValidEffortLevel (v : JSON) : Bool :=
  match v with
  | .str s => s = "none" || s = "low" || s = "medium" || s = "high"
  | _ => false

/-- `validateThinkingBudget`: on a thinking-capable model a budget of
exactly `0` or below `-1` is corrected to the default sentinel; any other
budget, and every budget on a non-thinking model, passes through. -/
def validateThinkingBudget (models : String → Option ModelInfo) (modelId : String)
    (thinkingBudget : Int) : Int :=
  if modelThinking models modelId then
    if thinkingBudget = 0 then DEFAULT_THINKING_BUDGET
    else if thinkingBudget < -1 then DEFAULT_THINKING_BUDGET
    else thinkingBudget
  else thinkingBudget

/-- JS `a || b` on optional values (`none` is `undefined`): the first
operand is returned when truthy, otherwise the second operand as-is. -/
def jsOrJ (a b : Option JSON) : Option JSON :=
  match a with
  | some v => if jsTruthy v then some v else b
  | none => b

/-- The function part of an OpenAI-style tool declaration. -/
structure ToolFunction where
  name : String
  description : Option String
  parameters : Option JSON

/-- An OpenAI-style request tool (`{type: "function", function: {...}}`;
only `function` is consumed by the verified code). -/
structure RequestTool where
  function : ToolFunction

/-- The request options consumed by `createValidatedConfig` /
`createValidateTools` (the relevant subset of `ChatCompletionRequest`).
Sampling fields the code merely copies are kept as raw JSON values.
`thinking_budget` is an integer when present; `extra_body` and
`model_params` are raw objects whose `reasoning_effort` member is read
with optional chaining. -/
structure ChatOptions where
  temperature : Option JSON := none
  max_tokens : Option JSON := none
  top_p : Option JSON := none
  stop : Option JSON := none
  presence_penalty : Option JSON := none
  frequency_penalty : Option JSON := none
  seed : Option JSON := none
  response_format : Option JSON := none
  thinking_budget : Option Int := none
  reasoning_effort : Option JSON := none
  extra_body : Option JSON := none
  model_params : Option JSON := none
  tools : Option (List RequestTool) := none
  tool_choice : Option JSON := none

/-- The effort-hint resolution
`options.reasoning_effort || options.extra_body?.reasoning_effort ||
options.model_params?.reasoning_effort` (JS `||`: first truthy operand,
else the last one). -/
def resolveReasoningEffort (options : ChatOptions) : Option JSON :=
  jsOrJ options.reasoning_effort
    (jsOrJ (options.extra_body.bind (fun eb => jsGetField eb "reasoning_effort"))
      (options.model_params.bind (fun mp => jsGetField mp "reasoning_effort")))

/-- `thinkingConfig` as emitted into the generation config. -/
structure ThinkingConfig where
  thinkingBudget : Int
  includeThoughts : Bool
deriving DecidableEq

/-- The generation config assembled by `createValidatedConfig`. `none`
fields model keys that are `undefined` and hence stripped by the
source's final `Object.keys(...).forEach(... delete ...)` cleanup
(`null`-valued JSON fields survive that cleanup and are kept here as
`some .null`). -/
structure GenerationConfig where
  temperature : JSON
  maxOutputTokens : Option JSON
  topP : Option JSON
  stopSequences : Option JSON
  presencePenalty : Option JSON
  frequencyPenalty : Option JSON
  seed : Option JSON
  responseMimeType : Option String
  thinkingConfig : Option ThinkingConfig
deriving DecidableEq

/-- `createValidatedConfig`. `DEFAULT_TEMPERATURE` (a constant whose
module is not part of the given sources) is passed in as `defTemp`; the
JS `options.temperature ?? DEFAULT_TEMPERATURE` nullish-coalescing treats
both an absent and a `null` temperature as missing. The thinking branch
resolves the budget (explicit `thinking_budget`, else the default
sentinel), lets a valid reasoning-effort hint override it and force
`includeReasoning`, validates the budget, and emits `thinkingConfig`
with visible thoughts only when `isRealThinkingEnabled && includeReasoning`. -/
def createValidatedConfig (models : String → Option ModelInfo)
    (B : ReasoningEffortBudgets) (defTemp : JSON) (modelId : String)
    (options : ChatOptions) (isRealThinkingEnabled includeReasoning : Bool) :
    GenerationConfig :=
  let temperature :=
    match options.temperature with
    | some .null => defTemp
    | some v => v
    | none => defTemp
  let stopSequences :=
    match options.stop with
    | some (.str s) => some (JSON.arr [.str s])
    | v => v
  let responseMimeType :=
    match options.response_format with
    | some rf =>
        if jsGetField rf "type" = some (.str "json_object") then
          some "application/json"
        else none
    | none => none
  let isThinkingModel := modelThinking models modelId
  let thinkingConfig :=
    if isThinkingModel then
      let tb0 : Int := options.thinking_budget.getD DEFAULT_THINKING_BUDGET
      let eff := resolveReasoningEffort options
      let useEffort :=
        match eff with
        | some v => jsTruthy v && isValidEffortLevel v
        | none => false
      let effortS :=
        match eff with
        | some (.str s) => s
        | _ => ""
      let tb1 := if useEffort then mapEffortToThinkingBudget B effortS modelId else tb0
      let includeReasoning1 :=
        if useEffort then decide (effortS ≠ "none") else includeReasoning
      if isRealThinkingEnabled && includeReasoning1 then
        some (ThinkingConfig.mk (validateThinkingBudget models modelId tb1) true)
      else
        some (ThinkingConfig.mk
          (validateThinkingBudget models modelId DEFAULT_THINKING_BUDGET) false)
    else none
  { temperature := temperature
    maxOutputTokens := options.max_tokens
    topP := options.top_p
    stopSequences := stopSequences
    presencePenalty := options.presence_penalty
    frequencyPenalty := options.frequency_penalty
    seed := options.seed
    responseMimeType := responseMimeType
    thinkingConfig := thinkingConfig }

/-- A converted function declaration (one element of the
`functionDeclarations` group; `none` members are `undefined` and absent
from the serialized request). -/
structure FunctionDeclaration where
  name : String
  description : Option String
  parameters : Option JSON
deriving DecidableEq

/-- `tool.function.parameters || {}` followed by the schema converter. -/
def declFromTool (t : RequestTool) : FunctionDeclaration :=
  { name := t.function.name
    description := t.function.description
    parameters :=
      convertJSONSchemaToGeminiSchema
        (match t.function.parameters with
         | some p => if jsTruthy p then p else JSON.obj []
         | none => JSON.obj []) }

/-- Result of `createValidateTools`: the `tools` array (each element one
`{functionDeclarations}` group) and the `toolConfig` object (initialized
to `{}` and left empty unless a recognized tool choice is present). -/
structure ValidateToolsResult where
  tools : List (List FunctionDeclaration)
  toolConfig : JSON
deriving DecidableEq

/-- The `functionCallingConfig` object for a mode without allowed names. -/
def fccMode (mode : String) : JSON :=
  .obj [("functionCallingConfig", .obj [("mode", .str mode)])]

/-- `createValidateTools`: with a non-empty `options.tools` array, build
one `functionDeclarations` group and map the tool choice: `"auto"` →
mode AUTO, `"none"` → mode NONE, an object with a truthy `function`
member → mode ANY with that function's name as the only allowed name
(a missing `name` is `undefined`, which `JSON.stringify` renders as
`null` inside the array — modelled by `getD .null`); anything else
leaves `toolConfig` as the initial empty object. -/
def createValidateTools (options : ChatOptions) : ValidateToolsResult :=
  match options.tools with
  | some ts =>
      if ts.isEmpty then ⟨[], .obj []⟩
      else
        let functionDeclarations := ts.map declFromTool
        let toolConfig :=
          match options.tool_choice with
          | some tc =>
              if jsTruthy tc then
                if tc = .str "auto" then fccMode "AUTO"
                else if tc = .str "none" then fccMode "NONE"
                else
                  match jsGetField tc "function" with
                  | some f =>
                      if jsTruthy f then
                        .obj [("functionCallingConfig",
                          .obj [("mode", .str "ANY"),
                                ("allowedFunctionNames",
                                 .arr [(jsGetField f "name").getD .null])])]
                      else .obj []
                  | none => .obj []
              else .obj []
          | none => .obj []
        ⟨[functionDeclarations], toolConfig⟩
  | none => ⟨[], .obj []⟩

/-- The precomputed tool-resolution flags and lists
(`NativeToolsConfiguration` in the source; native tools are raw JSON
objects). -/
structure NativeToolsConfiguration where
  useCustomTools : Bool
  customTools : Option (List RequestTool)
  useNativeTools : Bool
  nativeTools : Option (List JSON)

/-- The `tools` value of `createFinalToolConfiguration`: either one
`functionDeclarations` group built from the custom tools, or the
normalized native tool list. -/
inductive ToolsValue where
  | customDecls (groups : List (List FunctionDeclaration))
  | nativeList (tools : List JSON)
deriving DecidableEq

/-- Native-tool normalization inside `createFinalToolConfiguration`: a
truthy `google_search` member wins, then a truthy `url_context` member,
otherwise the tool object passes through unchanged. -/
def normalizeNativeTool (tool : JSON) : JSON :=
  match jsGetField tool "google_search" with
  | some g =>
      if jsTruthy g then .obj [("google_search", g)]
      else
        match jsGetField tool "url_context" with
        | some u => if jsTruthy u then .obj [("url_context", u)] else tool
        | none => tool
  | none =>
      match jsGetField tool "url_context" with
      | some u => if jsTruthy u then .obj [("url_context", u)] else tool
      | none => tool

/-- `createFinalToolConfiguration`: the custom branch wraps the custom
tools into one `functionDeclarations` group and passes through the
`toolConfig` computed by `createValidateTools(options)`; the native
branch normalizes each native tool and produces no `toolConfig`; with no
tools enabled or empty lists both components are `undefined`. -/
def createFinalToolConfiguration (config : NativeToolsConfiguration)
    (options : ChatOptions) : Option ToolsValue × Option JSON :=
  if config.useCustomTools &&
      (match config.customTools with | some l => !l.isEmpty | none => false) then
    (some (ToolsValue.customDecls [(config.customTools.getD []).map declFromTool]),
     some (createValidateTools options).toolConfig)
  else if config.useNativeTools &&
      (match config.nativeTools with | some l => !l.isEmpty | none => false) then
    (some (ToolsValue.nativeList ((config.nativeTools.getD []).map normalizeNativeTool)),
     none)
  else (none, none)

/-!
Stream transformer (`src/stream-transformer.ts`:
`createOpenAIStreamTransformer`, its `transform` and `flush`, and the
type guards `isReasoningData`, `isReasoningEndData`,
`isGeminiFunctionCall`, `isUsageData`, `isNativeToolResponse`).

The transformer's per-stream randomness (the `chatcmpl-` stream id, the
creation timestamp, and the `call_` uuid drawn per tool-code chunk) is
modelled by parameters: `chatID`, `created`, and a draw sequence
`ids : Nat → String` consumed at an index tracked in the state.
-/

/-- A backend stream chunk `{type, data}` (the `type` strings are the
tagged-union discriminators; unrecognized ones fall through the `switch`
with an empty delta). -/
structure StreamChunkM where
  type : String
  data : JSON
deriving DecidableEq

/-- `isReasoningData`: a non-null object with a `reasoning` or `toolCode`
key (the JS `in` test on an array or primitive is false for these names). -/
def isReasoningData (d : JSON) : Bool :=
  match d with
  | .obj fs => jsHasKey fs "reasoning" || jsHasKey fs "toolCode"
  | _ => false

/-- `isReasoningEndData`: a non-null object with a `finished` key. -/
def isReasoningEndData (d : JSON) : Bool :=
  match d with
  | .obj fs => jsHasKey fs "finished"
  | _ => false

/-- `isGeminiFunctionCall`: a non-null object with `name` and `args` keys. -/
def isGeminiFunctionCall (d : JSON) : Bool :=
  match d with
  | .obj fs => jsHasKey fs "name" && jsHasKey fs "args"
  | _ => false

/-- `isUsageData`: a non-null object with `inputTokens` and `outputTokens`
keys. -/
def isUsageData (d : JSON) : Bool :=
  match d with
  | .obj fs => jsHasKey fs "inputTokens" && jsHasKey fs "outputTokens"
  | _ => false

/-- `isNativeToolResponse`: a non-null object with `type` and `data` keys. -/
def isNativeToolResponse (d : JSON) : Bool :=
  match d with
  | .obj fs => jsHasKey fs "type" && jsHasKey fs "data"
  | _ => false

/-- Modelled from the spec: `OPENAI_CHAT_COMPLETION_OBJECT` comes from a
config module that is not part of the given sources; it is the constant
`object` field of every emitted frame (its concrete value is irrelevant
to every claim below). -/
def OPENAI_CHAT_COMPLETION_OBJECT : String := "chat.completion.chunk"

/-- The per-stream mutable state of `createOpenAIStreamTransformer`:
`firstChunk`, `toolCallId`, `toolCallName`, `usageData`, plus the index
of the next uuid draw (modelling `crypto.randomUUID()`). `toolCallName`
holds whatever `toolData.name` was (the guard checks only presence). -/
structure TState where
  firstChunk : Bool
  toolCallId : Option String
  toolCallName : Option JSON
  usageData : Option JSON
  uuidCounter : Nat
deriving DecidableEq

/-- The state at stream start. -/
def initialTState : TState :=
  { firstChunk := true, toolCallId := none, toolCallName := none,
    usageData := none, uuidCounter := 0 }

/-- Delta entries in insertion order; an entry valued `none` models a key
assigned the JS value `undefined` (it counts for `Object.keys(delta)` but
is dropped by `JSON.stringify`). -/
def DeltaEntries := List (String × Option JSON)

/-- The `transform(chunk, controller)` body: given the mode flag, the
uuid draw sequence and the current state, produce the next state and the
delta entries of the emitted frame, if any (`none` both for the `usage`
chunk's early return and for an empty delta, which the source does not
enqueue). -/
def transformChunk (isR1 : Bool) (ids : Nat → String) (s : TState)
    (c : StreamChunkM) : TState × Option (List (String × Option JSON)) :=
  if c.type = "text" ∨ c.type = "thinking_content" then
    match c.data with
    | .str t =>
        if s.firstChunk then
          ({ s with firstChunk := false },
           some [("content", some (.str t)), ("role", some (.str "assistant"))])
        else (s, some [("content", some (.str t))])
    | _ => (s, none)
  else if c.type = "real_thinking" then
    match c.data with
    | .str t =>
        (s, some [(if isR1 then "reasoning_content" else "reasoning", some (.str t))])
    | _ => (s, none)
  else if c.type = "reasoning" then
    if isReasoningData c.data then
      (s, some [(if isR1 then "reasoning_content" else "reasoning",
                 jsGetField c.data "reasoning")])
    else (s, none)
  else if c.type = "reasoning_end" then
    if !isR1 && isReasoningEndData c.data then
      (s, some [("reasoning_finished", jsGetField c.data "finished")])
    else (s, none)
  else if c.type = "tool_code" then
    if isGeminiFunctionCall c.data then
      let callId := "call_" ++ ids s.uuidCounter
      let nameV := (jsGetField c.data "name").getD .null
      let argsV := (jsGetField c.data "args").getD .null
      let callObj : JSON :=
        .arr [.obj [("index", .num 0), ("id", .str callId), ("type", .str "function"),
                    ("function", .obj [("name", nameV),
                                       ("arguments", .str (jsonStringify argsV))])]]
      let s' := { s with toolCallName := jsGetField c.data "name",
                         toolCallId := some callId,
                         uuidCounter := s.uuidCounter + 1 }
      if s.firstChunk then
        ({ s' with firstChunk := false },
         some [("tool_calls", some callObj), ("role", some (.str "assistant")),
               ("content", some .null)])
      else (s', some [("tool_calls", some callObj)])
    else (s, none)
  else if c.type = "native_tool" then
    if isNativeToolResponse c.data then
      (s, some [("native_tool_calls", some (.arr [c.data]))])
    else (s, none)
  else if c.type = "grounding_metadata" then
    if jsTruthy c.data then (s, some [("grounding", some c.data)]) else (s, none)
  else if c.type = "usage" then
    if isUsageData c.data then ({ s with usageData := some c.data }, none)
    else (s, none)
  else (s, none)

/-- `JSON.stringify`'s view of a delta: keys assigned `undefined` are
dropped. -/
def mkDeltaJSON (entries : List (String × Option JSON)) : JSON :=
  .obj (entries.filterMap (fun p => p.2.map (fun v => (p.1, v))))

/-- One non-terminal SSE frame payload (`OpenAIChunk` in the source), in
the exact field order of the literal in `transform`. -/
def mkChunkFrame (chatID : String) (created : Int) (model : String)
    (entries : List (String × Option JSON)) : JSON :=
  .obj [("id", .str chatID),
        ("object", .str OPENAI_CHAT_COMPLETION_OBJECT),
        ("created", .num created),
        ("model", .str model),
        ("choices", .arr [.obj [("index", .num 0),
                                ("delta", mkDeltaJSON entries),
                                ("finish_reason", .null),
                                ("logprobs", .null),
                                ("matched_stop", .null)]]),
        ("usage", .null)]

/-- JS `+` as used on the token counts in `flush`. The backend adapter
guarantees numeric `inputTokens`/`outputTokens`; a non-numeric operand
(unreachable under that contract) is modelled as `null`. -/
def jsAdd (a b : JSON) : JSON :=
  match a, b with
  | .num x, .num y => .num (x + y)
  | _, _ => .null

/-- The terminal frame payload built by `flush`: finish reason from the
truthiness of `toolCallId`, then `usage` when usage data was recorded,
then (r1 mode only) a top-level `completion_tokens_details` with a
placeholder `reasoning_tokens: 0`. -/
def flushPayload (isR1 : Bool) (chatID : String) (created : Int) (model : String)
    (s : TState) : JSON :=
  let finishReason :=
    match s.toolCallId with
    | some cid => if cid = "" then "stop" else "tool_calls"
    | none => "stop"
  .obj ([("id", .str chatID),
         ("object", .str OPENAI_CHAT_COMPLETION_OBJECT),
         ("created", .num created),
         ("model", .str model),
         ("choices", .arr [.obj [("index", .num 0),
                                 ("delta", .obj []),
                                 ("finish_reason", .str finishReason)]])]
    ++ (match s.usageData with
        | some u =>
            [("usage", .obj [("prompt_tokens", (jsGetField u "inputTokens").getD .null),
                             ("completion_tokens", (jsGetField u "outputTokens").getD .null),
                             ("total_tokens",
                              jsAdd ((jsGetField u "inputTokens").getD .null)
                                    ((jsGetField u "outputTokens").getD .null))])]
        | none => [])
    ++ (if isR1 then
          [("completion_tokens_details", .obj [("reasoning_tokens", .num 0)])]
        else []))

/-- One emitted server-sent event: a JSON frame or the `[DONE]` sentinel. -/
inductive SSEvent where
  | frame (payload : JSON)
  | done
deriving DecidableEq

/-- The byte encoding of one event (`data: <payload>\n\n`). -/
def encodeSSE : SSEvent → String
  | .frame p => "data: " ++ jsonStringify p ++ "\x0a\x0a"
  | .done => "data: [DONE]\x0a\x0a"

/-- Mode normalization of `createOpenAIStreamTransformer`: an empty
`outputMode` falls back to `"tagged"` (JS `||`), the result is
lowercased, and the legacy alias `think-tags` resolves to `tagged`. -/
def modeOf (outputMode : String) : String :=
  let rawMode := jsToLower (if outputMode = "" then "tagged" else outputMode)
  if rawMode = "think-tags" then "tagged" else rawMode

/-- The r1-mode flag (`isR1` in the source). -/
def isR1Mode (outputMode : String) : Bool :=
  modeOf outputMode = "r1"

/-- The state after consuming a chunk list. -/
def streamFinalState (isR1 : Bool) (ids : Nat → String)
    (chunks : List StreamChunkM) : TState :=
  chunks.foldl (fun s c => (transformChunk isR1 ids s c).1) initialTState

/-- One fold step of the stream: advance the state and append the
emitted frame's entries, if any. -/
def streamStep (isR1 : Bool) (ids : Nat → String)
    (acc : TState × List (List (String × Option JSON))) (c : StreamChunkM) :
    TState × List (List (String × Option JSON)) :=
  let r := transformChunk isR1 ids acc.1 c
  (r.1, acc.2 ++ r.2.toList)

/-- The delta-entry lists of all frames emitted by `transform` over a
chunk list, in emission order. -/
def streamDeltaEntries (isR1 : Bool) (ids : Nat → String)
    (chunks : List StreamChunkM) : List (List (String × Option JSON)) :=
  (chunks.foldl
    (fun (acc : TState × List (List (String × Option JSON))) c =>
      let r := transformChunk isR1 ids acc.1 c
      (r.1, acc.2 ++ r.2.toList))
    (initialTState, [])).2

/-- The full event sequence of one stream: the per-chunk frames, then the
terminal frame from `flush`, then the `[DONE]` sentinel. -/
def runTransformer (model outputMode chatID : String) (created : Int)
    (ids : Nat → String) (chunks : List StreamChunkM) : List SSEvent :=
  (streamDeltaEntries (isR1Mode outputMode) ids chunks).map
      (fun entries => SSEvent.frame (mkChunkFrame chatID created model entries))
    ++ [SSEvent.frame
          (flushPayload (isR1Mode outputMode) chatID created model
            (streamFinalState (isR1Mode outputMode) ids chunks)),
        SSEvent.done]

/-- The `finish_reason` of a frame payload's first choice. -/
def payloadFinishReason (p : JSON) : Option JSON :=
  match jsGetField p "choices" with
  | some (.arr (c0 :: _)) => jsGetField c0 "finish_reason"
  | _ => none

/-- The `delta` object of a frame payload's first choice. -/
def payloadDelta (p : JSON) : Option JSON :=
  match jsGetField p "choices" with
  | some (.arr (c0 :: _)) => jsGetField c0 "delta"
  | _ => none

/-- Blank out the per-call opaque id inside one `tool_calls` element. -/
def scrubToolCallId (j : JSON) : JSON :=
  match j with
  | .obj fs => .obj (fs.map (fun p => if p.1 = "id" then ("id", .str "") else p))
  | _ => j

/-- Blank out the tool-call ids inside a delta object. -/
def scrubDeltaJSON (j : JSON) : JSON :=
  match j with
  | .obj fs => .obj (fs.map (fun p =>
      if p.1 = "tool_calls" then
        ("tool_calls",
         match p.2 with
         | .arr cs => .arr (cs.map scrubToolCallId)
         | v => v)
      else p))
  | _ => j

/-- Apply the delta scrub inside one choice object. -/
def scrubChoice (j : JSON) : JSON :=
  match j with
  | .obj fs => .obj (fs.map (fun p =>
      if p.1 = "delta" then ("delta", scrubDeltaJSON p.2) else p))
  | _ => j

/-- Blank out every per-stream random value in a frame payload: the
stream id, the created timestamp, and the tool-call ids inside deltas. -/
def scrubPayload (j : JSON) : JSON :=
  match j with
  | .obj fs => .obj (fs.map (fun p =>
      if p.1 = "id" then ("id", .str "")
      else if p.1 = "created" then ("created", .num 0)
      else if p.1 = "choices" then
        ("choices",
         match p.2 with
         | .arr cs => .arr (cs.map scrubChoice)
         | v => v)
      else p))
  | _ => j

/-- Scrub of one emitted event. -/
def scrubEvent : SSEvent → SSEvent
  | .frame p => .frame (scrubPayload p)
  | .done => .done

/-- Scrub of one delta-entry value (pre-serialization form). -/
def scrubEntryVal (k : String) (v : Option JSON) : Option JSON :=
  if k = "tool_calls" then
    v.map (fun j =>
      match j with
      | .arr cs => .arr (cs.map scrubToolCallId)
      | x => x)
  else v

/-- Scrub of a delta-entry list. -/
def scrubEntries (e : List (String × Option JSON)) : List (String × Option JSON) :=
  e.map (fun p => (p.1, scrubEntryVal p.1 p.2))

/-- A delta that carries none of `content`, `tool_calls`, `role` — i.e.
one that did not arise from a text, thinking_content, or tool_code chunk
(those kinds, and only those, set `content`/`tool_calls`). -/
def deltaNoStart (d : JSON) : Prop :=
  jsGetField d "content" = none ∧ jsGetField d "tool_calls" = none ∧
  jsGetField d "role" = none

/-- A delta carrying `content` or `tool_calls` — one that arose from a
text, thinking_content, or tool_code chunk. -/
def deltaStarts (d : JSON) : Prop :=
  (jsGetField d "content").isSome = true ∨ (jsGetField d "tool_calls").isSome = true

/-- A delta carrying `role: "assistant"`. -/
def deltaRoleAssistant (d : JSON) : Prop :=
  jsGetField d "role" = some (.str "assistant")

/-- When the delta carries `tool_calls`, its `content` is the explicit
`null`. -/
def deltaToolContentNull (d : JSON) : Prop :=
  (jsGetField d "tool_calls").isSome = true → jsGetField d "content" = some .null

/-- The chunk kinds the `transform` switch recognizes. -/
def recognizedChunkKind (t : String) : Bool :=
  t = "text" || t = "thinking_content" || t = "real_thinking" || t = "reasoning" ||
  t = "reasoning_end" || t = "tool_code" || t = "native_tool" ||
  t = "grounding_metadata" || t = "usage"

/-- The per-kind payload shape check of the `transform` switch: string
data for the text-like kinds, the respective type guard for
reasoning/reasoning_end/tool_code/native_tool/usage, truthiness for
grounding metadata. -/
def chunkShapeOK (c : StreamChunkM) : Bool :=
  if c.type = "text" ∨ c.type = "thinking_content" ∨ c.type = "real_thinking" then
    (match c.data with | .str _ => true | _ => false)
  else if c.type = "reasoning" then isReasoningData c.data
  else if c.type = "reasoning_end" then isReasoningEndData c.data
  else if c.type = "tool_code" then isGeminiFunctionCall c.data
  else if c.type = "native_tool" then isNativeToolResponse c.data
  else if c.type = "grounding_metadata" then jsTruthy c.data
  else if c.type = "usage" then isUsageData c.data
  else true

/-- Whether a chunk is one that clears `firstChunk` when emitted
(text/thinking_content with string data, or a well-shaped tool call). -/
def chunkStarts (c : StreamChunkM) : Bool :=
  if c.type = "text" ∨ c.type = "thinking_content" then
    match c.data with
    | .str _ => true
    | _ => false
  else if c.type = "tool_code" then isGeminiFunctionCall c.data
  else false

/-- `transform`'s emission with the per-call opaque id blanked, as a
function of the chunk and the `firstChunk` flag alone. -/
def canonEmit (isR1 : Bool) (c : StreamChunkM) (first : Bool) :
    Option (List (String × Option JSON)) :=
  if c.type = "text" ∨ c.type = "thinking_content" then
    match c.data with
    | .str t =>
        if first then
          some [("content", some (.str t)), ("role", some (.str "assistant"))]
        else some [("content", some (.str t))]
    | _ => none
  else if c.type = "real_thinking" then
    match c.data with
    | .str t =>
        some [(if isR1 then "reasoning_content" else "reasoning", some (.str t))]
    | _ => none
  else if c.type = "reasoning" then
    if isReasoningData c.data then
      some [(if isR1 then "reasoning_content" else "reasoning",
             jsGetField c.data "reasoning")]
    else none
  else if c.type = "reasoning_end" then
    if !isR1 && isReasoningEndData c.data then
      some [("reasoning_finished", jsGetField c.data "finished")]
    else none
  else if c.type = "tool_code" then
    if isGeminiFunctionCall c.data then
      let callObj : JSON :=
        .arr [.obj [("index", .num 0), ("id", .str ""), ("type", .str "function"),
                    ("function",
                     .obj [("name", (jsGetField c.data "name").getD .null),
                           ("arguments",
                            .str (jsonStringify ((jsGetField c.data "args").getD .null)))])]]
      if first then
        some [("tool_calls", some callObj), ("role", some (.str "assistant")),
              ("content", some .null)]
      else some [("tool_calls", some callObj)]
    else none
  else if c.type = "native_tool" then
    if isNativeToolResponse c.data then
      some [("native_tool_calls", some (.arr [c.data]))]
    else none
  else if c.type = "grounding_metadata" then
    if jsTruthy c.data then some [("grounding", some c.data)] else none
  else none

/-- Tool-call-id relation across two runs: both unset, or both of the
non-empty `call_` form. -/
def toolIdRel (s₁ s₂ : TState) : Prop :=
  (s₁.toolCallId = none ∧ s₂.toolCallId = none) ∨
  (∃ x₁ x₂, s₁.toolCallId = some ("call_" ++ x₁) ∧
            s₂.toolCallId = some ("call_" ++ x₂))

/-!
Shared lemmas about the JS object operations, then one theorem (plus
witness / counterexample where applicable) per claim.
-/

theorem jsGet_assign_ne {l : List (String × JSON)} {k' k : String} {v : JSON}
    (h : k' ≠ k) : jsGet (jsAssign l k' v) k = jsGet l k := by
  unfold jsAssign
  by_cases hk : jsHasKey l k'
  · rw [if_pos hk]
    unfold jsGet
    rw [List.find?_map]
    have hpred : ((fun p : String × JSON => decide (p.1 = k)) ∘
        (fun p => if p.1 = k' then (k', v) else p)) = fun p => decide (p.1 = k) := by
      funext q
      by_cases hq : q.1 = k'
      · simp [Function.comp, hq, h, Ne.symm h]
      · simp [Function.comp, hq]
    rw [hpred]
    cases hf : List.find? (fun p : String × JSON => decide (p.1 = k)) l with
    | none => simp
    | some q =>
        have hq := List.find?_some hf
        simp at hq
        have hif : (if q.1 = k' then (k', v) else q) = q := by
          rw [if_neg]
          rw [hq]
          exact fun hh => h hh.symm
        simp [hif]
  · rw [if_neg hk]
    unfold jsGet
    rw [List.find?_append]
    have h2 : List.find? (fun p : String × JSON => decide (p.1 = k)) [(k', v)] = none := by
      simp [h]
    rw [h2]
    simp

theorem jsGet_delete_self (l : List (String × JSON)) (k : String) :
    jsGet (jsDelete l k) k = none := by
  unfold jsGet
  cases hf : List.find? (fun p : String × JSON => decide (p.1 = k)) (jsDelete l k) with
  | none => simp [hf]
  | some q =>
      have h1 := List.find?_some hf
      have h2 := List.mem_of_find?_eq_some hf
      unfold jsDelete at h2
      have h3 := List.of_mem_filter h2
      simp at h1 h3
      exact absurd h1 h3

theorem jsGet_filter_keep {l : List (String × JSON)} {k : String}
    {p : String × JSON → Bool} (hp : ∀ v, p (k, v) = true) :
    jsGet (l.filter p) k = jsGet l k := by
  unfold jsGet
  induction l with
  | nil => rfl
  | cons q rest ih =>
      obtain ⟨a, b⟩ := q
      by_cases hq : a = k
      · subst hq
        rw [List.filter_cons, if_pos (hp b)]
        rw [List.find?_cons, List.find?_cons]
        have hd : (decide ((a, b).1 = a)) = true := by simp
        rw [hd]
      · have hd : (decide ((a, b).1 = k)) = false := by simp [hq]
        by_cases hpq : p (a, b) = true
        · rw [List.filter_cons, if_pos hpq]
          rw [List.find?_cons, List.find?_cons, hd]
          exact ih
        · rw [List.filter_cons, if_neg hpq]
          rw [List.find?_cons, hd]
          exact ih

/-- C2: for a reasoning-capable model, `validateThinkingBudget` returns
the DEFAULT sentinel (-1) when the budget is exactly 0 or strictly below
-1, and returns any other budget (>= -1 and nonzero) unchanged; for a
model that is not reasoning-capable every budget passes through. -/
theorem claim_C2 (models : String → Option ModelInfo) (modelId : String) (b : Int) :
    (modelThinking models modelId = true →
      ((b = 0 ∨ b < -1) → validateThinkingBudget models modelId b = -1) ∧
      (b ≥ -1 → b ≠ 0 → validateThinkingBudget models modelId b = b)) ∧
    (modelThinking models modelId = false →
      validateThinkingBudget models modelId b = b) := by
  unfold validateThinkingBudget DEFAULT_THINKING_BUDGET
  refine ⟨fun ht => ⟨fun hb => ?_, fun hge hne => ?_⟩, fun hf => ?_⟩
  · rw [if_pos ht]
    rcases hb with hb | hb
    · rw [if_pos hb]
    · rw [if_neg (by omega), if_pos hb]
  · rw [if_pos ht, if_neg hne, if_neg (by omega)]
  · rw [if_neg (by simp [hf])]

/-- C2 witness: concrete corrections and pass-throughs on the README's
thinking-capable `gemini-2.5-pro` and on an unknown (non-thinking) model. -/
theorem claim_C2_witness :
    validateThinkingBudget geminiCliModels "gemini-2.5-pro" 0 = -1 ∧
    validateThinkingBudget geminiCliModels "gemini-2.5-pro" (-5) = -1 ∧
    validateThinkingBudget geminiCliModels "gemini-2.5-pro" 4096 = 4096 ∧
    validateThinkingBudget geminiCliModels "gemini-2.5-pro" (-1) = -1 ∧
    validateThinkingBudget geminiCliModels "some-other-model" 0 = 0 :=
  ⟨((claim_C2 geminiCliModels "gemini-2.5-pro" 0).1 (by decide)).1 (Or.inl rfl),
   ((claim_C2 geminiCliModels "gemini-2.5-pro" (-5)).1 (by decide)).1 (Or.inr (by decide)),
   ((claim_C2 geminiCliModels "gemini-2.5-pro" 4096).1 (by decide)).2 (by decide) (by decide),
   ((claim_C2 geminiCliModels "gemini-2.5-pro" (-1)).1 (by decide)).2 (by decide) (by decide),
   (claim_C2 geminiCliModels "some-other-model" 0).2 (by decide)⟩

/-- C3: on a reasoning-capable model, a valid reasoning-effort hint
(resolved by checking the top-level field, then `extra_body`, then
`model_params`, each taken when truthy) overrides any explicit numeric
`thinking_budget` through the effort table; effort `none` forces the
thinking config to invisible thoughts with the re-validated default
budget, any other valid effort forces visible thoughts (under enabled
real thinking) with the mapped budget; and at efforts medium/high the
mapped budget differs between a model id containing `"flash"` and one
that does not whenever the table's two classes differ. -/
theorem claim_C3 (models : String → Option ModelInfo) (B : ReasoningEffortBudgets)
    (dT : JSON) (modelId : String) (options : ChatOptions) :
    (modelThinking models modelId = true →
      (∀ e ir, resolveReasoningEffort options = some (.str e) →
        (e = "low" ∨ e = "medium" ∨ e = "high") →
        (createValidatedConfig models B dT modelId options true ir).thinkingConfig =
          some ⟨validateThinkingBudget models modelId
            (mapEffortToThinkingBudget B e modelId), true⟩) ∧
      (∀ iRT ir, resolveReasoningEffort options = some (.str "none") →
        (createValidatedConfig models B dT modelId options iRT ir).thinkingConfig =
          some ⟨-1, false⟩)) ∧
    (∀ v, options.reasoning_effort = some v → jsTruthy v = true →
      resolveReasoningEffort options = some v) ∧
    ((options.reasoning_effort = none ∨
        (∃ v, options.reasoning_effort = some v ∧ jsTruthy v = false)) →
      ∀ w, options.extra_body.bind (fun eb => jsGetField eb "reasoning_effort") = some w →
        jsTruthy w = true → resolveReasoningEffort options = some w) ∧
    ((options.reasoning_effort = none ∨
        (∃ v, options.reasoning_effort = some v ∧ jsTruthy v = false)) →
      (options.extra_body.bind (fun eb => jsGetField eb "reasoning_effort") = none ∨
        (∃ w, options.extra_body.bind (fun eb => jsGetField eb "reasoning_effort") = some w ∧
          jsTruthy w = false)) →
      resolveReasoningEffort options =
        options.model_params.bind (fun mp => jsGetField mp "reasoning_effort")) ∧
    (∀ e, resolveReasoningEffort options = some (.str e) →
      (e = "none" ∨ e = "low" ∨ e = "medium" ∨ e = "high") →
      ∀ tb iRT ir,
        createValidatedConfig models B dT modelId
            { options with thinking_budget := tb } iRT ir =
          createValidatedConfig models B dT modelId options iRT ir) ∧
    (∀ m1 m2, jsStrIncludes m1 "flash" = true → jsStrIncludes m2 "flash" = false →
      (B.mediumFlash ≠ B.mediumDefault →
        mapEffortToThinkingBudget B "medium" m1 ≠ mapEffortToThinkingBudget B "medium" m2) ∧
      (B.highFlash ≠ B.highDefault →
        mapEffortToThinkingBudget B "high" m1 ≠ mapEffortToThinkingBudget B "high" m2)) := by
  refine ⟨fun ht => ⟨fun e ir he hval => ?_, fun iRT ir he => ?_⟩,
    fun v hv htr => ?_, fun hfirst w hw htr => ?_, fun hfirst hsecond => ?_,
    fun e he hval tb iRT ir => ?_, fun m1 m2 h1 h2 => ⟨fun hne => ?_, fun hne => ?_⟩⟩
  · rcases hval with rfl | rfl | rfl <;>
      simp [createValidatedConfig, ht, he, isValidEffortLevel, jsTruthy]
  · simp [createValidatedConfig, ht, he, isValidEffortLevel, jsTruthy,
      validateThinkingBudget, DEFAULT_THINKING_BUDGET]
  · simp [resolveReasoningEffort, jsOrJ, hv, htr]
  · rcases hfirst with hf | ⟨v, hv, hvf⟩
    · simp [resolveReasoningEffort, jsOrJ, hf, hw, htr]
    · simp [resolveReasoningEffort, jsOrJ, hv, hvf, hw, htr]
  · rcases hfirst with hf | ⟨v, hv, hvf⟩ <;>
      rcases hsecond with hs | ⟨w, hw, hwf⟩
    all_goals simp [resolveReasoningEffort, jsOrJ, *]
  · by_cases hm : modelThinking models modelId = true
    · have he' : resolveReasoningEffort { options with thinking_budget := tb } =
          some (JSON.str e) := he
      rcases hval with rfl | rfl | rfl | rfl <;>
        simp [createValidatedConfig, hm, he, he', isValidEffortLevel, jsTruthy]
    · simp only [Bool.not_eq_true] at hm
      simp [createValidatedConfig, hm]
  · simp [mapEffortToThinkingBudget, h1, h2]
    exact hne
  · simp [mapEffortToThinkingBudget, h1, h2]
    exact hne

/-- C3 witness: the effort hint overrides an explicit budget on the
flash model (12288 at medium), effort `none` yields invisible thoughts
with the default budget, the hint is found inside `extra_body`, and the
medium/high budgets differ between flash and non-flash model ids. -/
theorem claim_C3_witness :
    (createValidatedConfig geminiCliModels REASONING_EFFORT_BUDGETS (.num 1)
        "gemini-2.5-flash"
        { reasoning_effort := some (.str "medium"), thinking_budget := some 99 }
        true false).thinkingConfig = some ⟨12288, true⟩ ∧
    (createValidatedConfig geminiCliModels REASONING_EFFORT_BUDGETS (.num 1)
        "gemini-2.5-flash"
        { reasoning_effort := some (.str "none"), thinking_budget := some 5000 }
        true true).thinkingConfig = some ⟨-1, false⟩ ∧
    resolveReasoningEffort
        { extra_body := some (.obj [("reasoning_effort", .str "high")]) } =
      some (.str "high") ∧
    mapEffortToThinkingBudget REASONING_EFFORT_BUDGETS "medium" "gemini-2.5-flash" ≠
      mapEffortToThinkingBudget REASONING_EFFORT_BUDGETS "medium" "gemini-2.5-pro" ∧
    mapEffortToThinkingBudget REASONING_EFFORT_BUDGETS "high" "gemini-2.5-flash" ≠
      mapEffortToThinkingBudget REASONING_EFFORT_BUDGETS "high" "gemini-2.5-pro" := by
  refine ⟨?_, ?_, ?_, ?_, ?_⟩
  · exact (((claim_C3 geminiCliModels REASONING_EFFORT_BUDGETS (.num 1) "gemini-2.5-flash"
      { reasoning_effort := some (.str "medium"), thinking_budget := some 99 }).1
      (by decide)).1 "medium" false (by decide) (Or.inr (Or.inl rfl))).trans (by decide)
  · exact ((claim_C3 geminiCliModels REASONING_EFFORT_BUDGETS (.num 1) "gemini-2.5-flash"
      { reasoning_effort := some (.str "none"), thinking_budget := some 5000 }).1
      (by decide)).2 true true (by decide)
  · exact (claim_C3 geminiCliModels REASONING_EFFORT_BUDGETS (.num 1) "gemini-2.5-flash"
      { extra_body := some (.obj [("reasoning_effort", .str "high")]) }).2.2.1
      (Or.inl rfl) (.str "high") (by decide) (by decide)
  · exact ((claim_C3 geminiCliModels REASONING_EFFORT_BUDGETS (.num 1) "gemini-2.5-flash"
      {}).2.2.2.2.2 "gemini-2.5-flash" "gemini-2.5-pro" (by decide) (by decide)).1 (by decide)
  · exact ((claim_C3 geminiCliModels REASONING_EFFORT_BUDGETS (.num 1) "gemini-2.5-flash"
      {}).2.2.2.2.2 "gemini-2.5-flash" "gemini-2.5-pro" (by decide) (by decide)).2 (by decide)

/-- C1 counterexample: a malformed tool choice whose `function` member is
truthy but names nothing — `{function: {}}` or `{function: "g"}` — does
NOT yield an empty toolConfig: it forces functionCallingConfig mode ANY
with `allowedFunctionNames: [null]` (the missing `name` is `undefined`,
rendered `null`), refuting the claim that any malformed tool_choice
yields no toolConfig. -/
theorem claim_C1_counterexample :
    (createValidateTools
        { tools := some [⟨⟨"get_weather", some "d", some (.obj [("type", .str "object")])⟩⟩],
          tool_choice := some (.obj [("function", .obj [])]) }).toolConfig =
      .obj [("functionCallingConfig",
        .obj [("mode", .str "ANY"), ("allowedFunctionNames", .arr [.null])])] ∧
    (createValidateTools
        { tools := some [⟨⟨"get_weather", some "d", some (.obj [("type", .str "object")])⟩⟩],
          tool_choice := some (.obj [("function", .str "g")]) }).toolConfig ≠
      .obj [] := by
  decide

/-- C1 (corrected): with a non-empty custom tool list,
`createValidateTools` maps the tool choice `"auto"`/`"none"` to
functionCallingConfig modes AUTO/NONE and any `tool_choice` carrying a
truthy `function` member to mode ANY with allowed names
`[function.name ?? null]` — so a malformed object choice such as
`{function: {}}` or `{function: "g"}` still forces ANY, with `null` as
the single allowed name, rather than yielding no toolConfig; only an
absent or falsy choice, or one without a truthy `function` member,
leaves the empty toolConfig object, which carries no
`functionCallingConfig`; `createFinalToolConfiguration` passes that
toolConfig through on the custom branch and yields undefined `tools`
and `toolConfig` when neither tool class is enabled and non-empty. -/
theorem claim_C1 (options : ChatOptions) (config : NativeToolsConfiguration)
    (ts : List RequestTool) (h : options.tools = some ts) (hne : ts ≠ []) :
    (options.tool_choice = some (.str "auto") →
      (createValidateTools options).toolConfig = fccMode "AUTO") ∧
    (options.tool_choice = some (.str "none") →
      (createValidateTools options).toolConfig = fccMode "NONE") ∧
    (∀ tc f, options.tool_choice = some tc → jsGetField tc "function" = some f →
      jsTruthy f = true →
      (createValidateTools options).toolConfig =
        .obj [("functionCallingConfig",
          .obj [("mode", .str "ANY"),
                ("allowedFunctionNames",
                 .arr [(jsGetField f "name").getD .null])])]) ∧
    (options.tool_choice = none → (createValidateTools options).toolConfig = .obj []) ∧
    (∀ tc, options.tool_choice = some tc → jsTruthy tc = false →
      (createValidateTools options).toolConfig = .obj []) ∧
    (∀ tc, options.tool_choice = some tc → tc ≠ .str "auto" → tc ≠ .str "none" →
      (jsGetField tc "function" = none ∨
        (∃ f, jsGetField tc "function" = some f ∧ jsTruthy f = false)) →
      (createValidateTools options).toolConfig = .obj [] ∧
        jsGetField (createValidateTools options).toolConfig "functionCallingConfig" = none) ∧
    (config.useCustomTools = true → ∀ cts, config.customTools = some cts → cts ≠ [] →
      createFinalToolConfiguration config options =
        (some (.customDecls [cts.map declFromTool]),
         some (createValidateTools options).toolConfig)) ∧
    ((config.useCustomTools = false ∨ config.customTools = none ∨
        config.customTools = some []) →
      (config.useNativeTools = false ∨ config.nativeTools = none ∨
        config.nativeTools = some []) →
      createFinalToolConfiguration config options = (none, none)) := by
  have hE : ts.isEmpty = false := by
    cases ts with
    | nil => exact absurd rfl hne
    | cons a l => rfl
  refine ⟨fun hc => ?_, fun hc => ?_, fun tc f hc hf htr => ?_, fun hc => ?_,
    fun tc hc htr => ?_, fun tc hc hna hnn hmal => ?_,
    fun hcu cts hcts hcne => ?_, fun hnc hnn => ?_⟩
  · simp [createValidateTools, h, hE, hc, jsTruthy]
  · simp [createValidateTools, h, hE, hc, jsTruthy]
  · cases tc with
    | obj fs =>
        have hf' : jsGetField (JSON.obj fs) "function" = some f := hf
        simp [createValidateTools, h, hE, hc, hf', htr]
        rfl
    | null => simp [jsGetField] at hf
    | bool b => simp [jsGetField] at hf
    | num n => simp [jsGetField] at hf
    | str s => simp [jsGetField] at hf
    | arr l => simp [jsGetField] at hf
  · simp [createValidateTools, h, hE, hc]
  · simp [createValidateTools, h, hE, hc, htr]
  · have hcfg : (createValidateTools options).toolConfig = .obj [] := by
      rcases hmal with hno | ⟨f, hf, hff⟩
      · simp [createValidateTools, h, hE, hc, hna, hnn, hno]
      · simp [createValidateTools, h, hE, hc, hna, hnn, hf, hff]
    exact ⟨hcfg, by simp [hcfg, jsGetField, jsGet]⟩
  · have hcE : cts.isEmpty = false := by
      cases cts with
      | nil => exact absurd rfl hcne
      | cons a l => rfl
    simp [createFinalToolConfiguration, hcu, hcts, hcE]
  · rcases hnc with h1 | h1 | h1 <;> rcases hnn with h2 | h2 | h2 <;>
      simp [createFinalToolConfiguration, h1, h2]

/-- C1 witness: concrete tool-choice mappings (`"auto"` → AUTO, named
function → ANY with a one-element allowed list, the unsupported
`"required"` → empty toolConfig), and the all-disabled configuration
yielding undefined tools and toolConfig. -/
theorem claim_C1_witness :
    (createValidateTools
        { tools := some [⟨⟨"get_weather", some "d", some (.obj [("type", .str "object")])⟩⟩],
          tool_choice := some (.str "auto") }).toolConfig = fccMode "AUTO" ∧
    (createValidateTools
        { tools := some [⟨⟨"get_weather", some "d", some (.obj [("type", .str "object")])⟩⟩],
          tool_choice := some (.obj [("type", .str "function"),
            ("function", .obj [("name", .str "get_weather")])]) }).toolConfig =
      .obj [("functionCallingConfig",
        .obj [("mode", .str "ANY"), ("allowedFunctionNames", .arr [.str "get_weather"])])] ∧
    (createValidateTools
        { tools := some [⟨⟨"get_weather", some "d", some (.obj [("type", .str "object")])⟩⟩],
          tool_choice := some (.str "required") }).toolConfig = .obj [] ∧
    createFinalToolConfiguration ⟨false, none, false, none⟩
        { tools := some [⟨⟨"get_weather", some "d", some (.obj [("type", .str "object")])⟩⟩] } =
      (none, none) := by
  refine ⟨?_, ?_, ?_, ?_⟩
  · exact (claim_C1 _ ⟨false, none, false, none⟩ _ rfl (List.cons_ne_nil _ _)).1 rfl
  · exact ((claim_C1 _ ⟨false, none, false, none⟩ _ rfl (List.cons_ne_nil _ _)).2.2.1
      (.obj [("type", .str "function"), ("function", .obj [("name", .str "get_weather")])])
      (.obj [("name", .str "get_weather")]) rfl (by decide) (by decide)).trans (by decide)
  · exact ((claim_C1 _ ⟨false, none, false, none⟩ _ rfl (List.cons_ne_nil _ _)).2.2.2.2.2.1
      (.str "required") rfl (by decide) (by decide) (Or.inl (by decide))).1
  · exact (claim_C1 _ ⟨false, none, false, none⟩ _ rfl
      (List.cons_ne_nil _ _)).2.2.2.2.2.2.2 (Or.inl rfl) (Or.inl rfl)

/-- C4: `toGeminiType` picks the first non-`"null"` entry of an
array-valued type (and is `undefined` when there is none), maps scalar
type strings case-insensitively (invariance under lowercasing) onto the
fixed enumeration OBJECT/STRING/NUMBER/INTEGER/BOOLEAN/ARRAY, the
converter removes the `type` key entirely when the type is unmapped, and
converting `{type: ["string","null"]}` yields
`{type: "STRING", nullable: true}`. -/
theorem claim_C4 :
    (∀ ts t1, ts.find? (fun x => x ≠ JSON.str "null") = some t1 →
      toGeminiType (.arr ts) = toGeminiType t1) ∧
    (∀ ts, ts.find? (fun x => x ≠ JSON.str "null") = none →
      toGeminiType (.arr ts) = none) ∧
    (∀ s₁ s₂, jsToLower s₁ = jsToLower s₂ →
      toGeminiType (.str s₁) = toGeminiType (.str s₂)) ∧
    (∀ s r, toGeminiType (.str s) = some r →
      r ∈ ["OBJECT", "STRING", "NUMBER", "INTEGER", "BOOLEAN", "ARRAY"]) ∧
    (∀ src tv j, jsGet src "type" = some tv → toGeminiType tv = none →
      convertJSONSchemaToGeminiSchema (.obj src) = some j →
      jsGetField j "type" = none) ∧
    (convertJSONSchemaToGeminiSchema (.obj [("type", .arr [.str "string", .str "null"])]) =
      some (.obj [("type", .str "STRING"), ("nullable", .bool true)])) := by
  refine ⟨fun ts t1 hf => ?_, fun ts hf => ?_, fun s₁ s₂ hl => ?_, fun s r hr => ?_,
    fun src tv j hget htv hconv => ?_, ?_⟩
  · rw [toGeminiType_arr, hf]
  · rw [toGeminiType_arr, hf]
  · show geminiTypeOfLower (jsToLower s₁) = geminiTypeOfLower (jsToLower s₂)
    rw [hl]
  · unfold toGeminiType geminiTypeOfLower at hr
    split_ifs at hr <;> simp_all
  · rw [convertJSONSchema_obj] at hconv
    have hj : j = .obj (assembleGeminiSchema src (cpOf src) (ciOf src)) :=
      (Option.some.inj hconv).symm
    subst hj
    show jsGet (assembleGeminiSchema src (cpOf src) (ciOf src)) "type" = none
    have hstrip : jsGet (stripUnsupportedKeys src) "type" = some tv := by
      unfold stripUnsupportedKeys
      rw [@jsGet_filter_keep src "type"
        (fun p => !(jsStrStartsWith p.1 "$") && geminiAllowList.contains p.1)
        (fun v =>
          show (!(jsStrStartsWith "type" "$") && geminiAllowList.contains "type") = true
          by decide)]
      exact hget
    unfold assembleGeminiSchema
    simp only [hstrip, htv]
    repeat' split
    all_goals simp [jsGet_assign_ne, jsGet_delete_self]
  · rw [convertJSONSchema_obj]
    decide

/-- C4 witness: a concrete array type skipping `"null"`, case-insensitive
mapping of a mixed-case scalar, the enumeration membership, loss of an
unmapped `type` key, and the `["string","null"]` round-trip. -/
theorem claim_C4_witness :
    toGeminiType (.arr [.str "null", .str "boolean"]) = toGeminiType (.str "boolean") ∧
    toGeminiType (.str "StRiNg") = toGeminiType (.str "string") ∧
    ("BOOLEAN" ∈ ["OBJECT", "STRING", "NUMBER", "INTEGER", "BOOLEAN", "ARRAY"]) ∧
    convertJSONSchemaToGeminiSchema (.obj [("type", .str "frobnicate")]) = some (.obj []) ∧
    jsGetField (.obj ([] : List (String × JSON))) "type" = none ∧
    convertJSONSchemaToGeminiSchema (.obj [("type", .arr [.str "string", .str "null"])]) =
      some (.obj [("type", .str "STRING"), ("nullable", .bool true)]) := by
  have hfr : convertJSONSchemaToGeminiSchema (.obj [("type", .str "frobnicate")]) =
      some (.obj []) := by
    rw [convertJSONSchema_obj]; decide
  refine ⟨?_, ?_, ?_, hfr, ?_, claim_C4.2.2.2.2.2⟩
  · exact claim_C4.1 [.str "null", .str "boolean"] (.str "boolean") (by decide)
  · exact claim_C4.2.2.1 "StRiNg" "string" (by decide)
  · exact claim_C4.2.2.2.1 "boolean" "BOOLEAN" (by decide)
  · exact claim_C4.2.2.2.2.1 [("type", .str "frobnicate")] (.str "frobnicate") (.obj [])
      (by decide) (by decide) hfr

theorem jsAssign_ne_nil (l : List (String × JSON)) (k : String) (v : JSON) :
    jsAssign l k v ≠ [] := by
  unfold jsAssign
  split
  · rename_i h
    intro hmap
    rw [List.map_eq_nil_iff] at hmap
    subst hmap
    simp [jsHasKey] at h
  · simp

theorem convertPropsMap_ne_nil {props : List (String × JSON)}
    (h : ∃ p ∈ props, convertJSONSchemaToGeminiSchema p.2 ≠ none) :
    convertPropsMap props ≠ [] := by
  unfold convertPropsMap
  suffices haux : ∀ (ps : List (String × JSON)) (acc : List (String × JSON)),
      (acc ≠ [] ∨ ∃ p ∈ ps, convertJSONSchemaToGeminiSchema p.2 ≠ none) →
      ps.foldl
        (fun acc p =>
          match convertJSONSchemaToGeminiSchema p.2 with
          | some c => jsAssign acc p.1 c
          | none => acc) acc ≠ [] by
    exact haux props [] (Or.inr h)
  intro ps
  induction ps with
  | nil =>
      intro acc hacc
      rcases hacc with hacc | ⟨p, hp, _⟩
      · simpa using hacc
      · simp at hp
  | cons p rest ih =>
      intro acc hacc
      simp only [List.foldl_cons]
      cases hc : convertJSONSchemaToGeminiSchema p.2 with
      | some c =>
          exact ih (jsAssign acc p.1 c) (Or.inl (jsAssign_ne_nil acc p.1 c))
      | none =>
          apply ih acc
          rcases hacc with hacc | ⟨q, hq, hqc⟩
          · exact Or.inl hacc
          · rcases List.mem_cons.mp hq with rfl | hq'
            · exact absurd hc hqc
            · exact Or.inr ⟨q, hq', hqc⟩

theorem foldl_normStep_enc (enc : String × JSON → JSON)
    (henc : ∀ acc p, normStep acc (enc p) = jsAssign acc p.1 p.2) :
    ∀ (props : List (String × JSON)) (acc : List (String × JSON)),
      (∀ p ∈ props, jsHasKey acc p.1 = false) →
      (props.map Prod.fst).Nodup →
      List.foldl normStep acc (props.map enc) = acc ++ props := by
  intro props
  induction props with
  | nil => intro acc _ _; simp
  | cons p rest ih =>
      intro acc hd hnd
      simp only [List.map_cons, List.foldl_cons, henc]
      have hkey : jsHasKey acc p.1 = false := hd p (by simp)
      have hassign : jsAssign acc p.1 p.2 = acc ++ [p] := by
        unfold jsAssign
        rw [hkey]
        simp
      rw [hassign]
      rw [ih (acc ++ [p]) ?hd2 ?hnd2]
      · simp
      case hd2 =>
        intro q hq
        have h1 : jsHasKey acc q.1 = false := hd q (List.mem_cons_of_mem p hq)
        have h2 : q.1 ≠ p.1 := by
          have hpn := (List.nodup_cons.mp hnd).1
          intro hqe
          exact hpn (hqe ▸ List.mem_map_of_mem Prod.fst hq)
        unfold jsHasKey at h1 ⊢
        rw [List.any_append]
        simp [h1, h2]
        exact fun he => h2 he.symm
      case hnd2 => exact (List.nodup_cons.mp hnd).2

theorem assemble_props_only (enc : JSON) (c : String × JSON)
    (rest : List (String × JSON)) :
    assembleGeminiSchema [("properties", enc)] (some (c :: rest)) none =
      [("properties", .obj (c :: rest))] := rfl

/-- C5 counterexample: the empty logical property set, encoded as a
mapping (`{properties: {}}`) versus as an (empty) pair list
(`{properties: []}`), converts to different outputs — the raw
`properties` value is left in place when the converted mapping is empty,
so the claim fails as stated. -/
theorem claim_C5_counterexample :
    convertJSONSchemaToGeminiSchema (.obj [("properties", .arr [])]) ≠
      convertJSONSchemaToGeminiSchema (.obj [("properties", .obj [])]) := by
  rw [convertJSONSchema_obj, convertJSONSchema_obj]
  decide

/-- C5 (amended): for a property set with distinct names at least one of
whose sub-schemas itself converts (so the converted mapping is
non-empty), the three accepted `properties` encodings — mapping,
`[name, schema]` pair list, `{key, value}` record list, `{name, schema}`
record list — produce identical converted output. -/
theorem claim_C5 (props : List (String × JSON))
    (hnd : (props.map Prod.fst).Nodup)
    (hex : ∃ p ∈ props, convertJSONSchemaToGeminiSchema p.2 ≠ none) :
    (convertJSONSchemaToGeminiSchema (.obj [("properties",
        .arr (props.map (fun p => .arr [.str p.1, p.2])))]) =
      convertJSONSchemaToGeminiSchema (.obj [("properties", .obj props)])) ∧
    (convertJSONSchemaToGeminiSchema (.obj [("properties",
        .arr (props.map (fun p => .obj [("key", .str p.1), ("value", p.2)])))]) =
      convertJSONSchemaToGeminiSchema (.obj [("properties", .obj props)])) ∧
    (convertJSONSchemaToGeminiSchema (.obj [("properties",
        .arr (props.map (fun p => .obj [("name", .str p.1), ("schema", p.2)])))]) =
      convertJSONSchemaToGeminiSchema (.obj [("properties", .obj props)])) := by
  obtain ⟨c, rest, hcps⟩ : ∃ c rest, convertPropsMap props = c :: rest := by
    cases hc : convertPropsMap props with
    | nil => exact absurd hc (convertPropsMap_ne_nil hex)
    | cons c rest => exact ⟨c, rest, rfl⟩
  have hside : ∀ enc : JSON, normalizeProperties enc = some props →
      convertJSONSchemaToGeminiSchema (.obj [("properties", enc)]) =
        some (.obj [("properties", .obj (c :: rest))]) := by
    intro enc hnorm
    rw [convertJSONSchema_obj]
    have hcp : cpOf [("properties", enc)] = some (convertPropsMap props) := by
      have hred : cpOf [("properties", enc)] =
          (match normalizeProperties enc with
           | some ps => some (convertPropsMap ps)
           | none => none) := rfl
      rw [hred, hnorm]
    rw [hcp, hcps]
    have hci : ciOf [("properties", enc)] = none := by
      unfold ciOf
      rfl
    rw [hci, assemble_props_only]
  have hA : convertJSONSchemaToGeminiSchema (.obj [("properties", .obj props)]) =
      some (.obj [("properties", .obj (c :: rest))]) :=
    hside (.obj props) rfl
  refine ⟨?_, ?_, ?_⟩
  · rw [hA]
    apply hside
    show some (List.foldl normStep []
      (props.map (fun p => JSON.arr [.str p.1, p.2]))) = some props
    rw [foldl_normStep_enc (fun p => .arr [.str p.1, p.2]) (fun acc p => rfl) props []
      (fun p _ => rfl) hnd]
    simp
  · rw [hA]
    apply hside
    show some (List.foldl normStep []
      (props.map (fun p => JSON.obj [("key", .str p.1), ("value", p.2)]))) = some props
    rw [foldl_normStep_enc (fun p => .obj [("key", .str p.1), ("value", p.2)])
      (fun acc p => rfl) props [] (fun p _ => rfl) hnd]
    simp
  · rw [hA]
    apply hside
    show some (List.foldl normStep []
      (props.map (fun p => JSON.obj [("name", .str p.1), ("schema", p.2)]))) = some props
    rw [foldl_normStep_enc (fun p => .obj [("name", .str p.1), ("schema", p.2)])
      (fun acc p => rfl) props [] (fun p _ => rfl) hnd]
    simp

/-- C5 witness: the three encodings of the one-element property set
`location : {type: "string"}` convert identically. -/
theorem claim_C5_witness :
    (convertJSONSchemaToGeminiSchema (.obj [("properties",
        .arr [.arr [.str "location", .obj [("type", .str "string")]]])]) =
      convertJSONSchemaToGeminiSchema (.obj [("properties",
        .obj [("location", .obj [("type", .str "string")])])])) ∧
    (convertJSONSchemaToGeminiSchema (.obj [("properties",
        .arr [.obj [("key", .str "location"), ("value", .obj [("type", .str "string")])]])]) =
      convertJSONSchemaToGeminiSchema (.obj [("properties",
        .obj [("location", .obj [("type", .str "string")])])])) ∧
    (convertJSONSchemaToGeminiSchema (.obj [("properties",
        .arr [.obj [("name", .str "location"), ("schema", .obj [("type", .str "string")])]])]) =
      convertJSONSchemaToGeminiSchema (.obj [("properties",
        .obj [("location", .obj [("type", .str "string")])])])) := by
  have h := claim_C5 [("location", .obj [("type", .str "string")])] (by decide)
    ⟨("location", .obj [("type", .str "string")]), by simp, by
      rw [convertJSONSchema_obj]; simp⟩
  exact h

theorem call_id_ne_empty (x : String) : ("call_" ++ x) ≠ "" := by
  intro h
  have h2 := congrArg String.length h
  rw [String.length_append] at h2
  have h5 : "call_".length = 5 := rfl
  have h0 : "".length = 0 := rfl
  omega

set_option maxHeartbeats 1000000 in
theorem transformChunk_toolCallId (isR1 : Bool) (ids : Nat → String) (s : TState)
    (c : StreamChunkM) :
    (transformChunk isR1 ids s c).1.toolCallId =
      (if c.type = "tool_code" && isGeminiFunctionCall c.data then
        some ("call_" ++ ids s.uuidCounter) else s.toolCallId) := by
  obtain ⟨t, d⟩ := c
  unfold transformChunk
  dsimp only
  split_ifs <;> repeat' split
  all_goals (first | rfl | simp_all)

theorem foldl_state_toolCallId (isR1 : Bool) (ids : Nat → String)
    (chunks : List StreamChunkM) :
    ∀ s : TState,
      (((chunks.foldl (fun s c => (transformChunk isR1 ids s c).1) s).toolCallId = none) ↔
        (s.toolCallId = none ∧
         chunks.any (fun c => c.type = "tool_code" && isGeminiFunctionCall c.data) = false)) ∧
      ((∀ cid, s.toolCallId = some cid → cid ≠ "") →
        ∀ cid, (chunks.foldl (fun s c => (transformChunk isR1 ids s c).1) s).toolCallId =
          some cid → cid ≠ "") := by
  induction chunks with
  | nil => intro s; simp
  | cons c rest ih =>
      intro s
      simp only [List.foldl_cons, List.any_cons]
      constructor
      · rw [(ih _).1]
        rw [transformChunk_toolCallId]
        by_cases hc : (c.type = "tool_code" && isGeminiFunctionCall c.data) = true
        · simp [hc]
        · simp only [Bool.not_eq_true] at hc
          simp [hc]
      · intro hs
        apply (ih _).2
        intro cid hcid
        rw [transformChunk_toolCallId] at hcid
        by_cases hc : (c.type = "tool_code" && isGeminiFunctionCall c.data) = true
        · rw [if_pos hc] at hcid
          have : cid = "call_" ++ ids s.uuidCounter := (Option.some.inj hcid).symm
          rw [this]
          exact call_id_ne_empty _
        · simp only [Bool.not_eq_true] at hc
          rw [if_neg (by simp [hc])] at hcid
          exact hs cid hcid

/-- C6: the stream's events are the per-chunk frames followed by exactly
one terminal frame and the `[DONE]` sentinel, and the terminal frame's
finish reason is `"tool_calls"` precisely when the chunk sequence
contains a well-formed `tool_code` chunk (one that assigned a tool-call
id), else `"stop"`. -/
theorem claim_C6 (model outputMode chatID : String) (created : Int) (ids : Nat → String)
    (chunks : List StreamChunkM) :
    runTransformer model outputMode chatID created ids chunks =
      (streamDeltaEntries (isR1Mode outputMode) ids chunks).map
        (fun entries => SSEvent.frame (mkChunkFrame chatID created model entries)) ++
      [SSEvent.frame (flushPayload (isR1Mode outputMode) chatID created model
        (streamFinalState (isR1Mode outputMode) ids chunks)), SSEvent.done] ∧
    payloadFinishReason
        (flushPayload (isR1Mode outputMode) chatID created model
          (streamFinalState (isR1Mode outputMode) ids chunks)) =
      some (.str (if chunks.any (fun c => c.type = "tool_code" && isGeminiFunctionCall c.data)
        then "tool_calls" else "stop")) := by
  refine ⟨rfl, ?_⟩
  have hred : ∀ s : TState, payloadFinishReason
      (flushPayload (isR1Mode outputMode) chatID created model s) =
      some (.str (match s.toolCallId with
        | some cid => if cid = "" then "stop" else "tool_calls"
        | none => "stop")) := by
    intro s
    rfl
  rw [hred]
  have h1 := (foldl_state_toolCallId (isR1Mode outputMode) ids chunks initialTState).1
  have h2 := (foldl_state_toolCallId (isR1Mode outputMode) ids chunks initialTState).2
    (by intro cid h; simp [initialTState] at h)
  by_cases hany : chunks.any (fun c => c.type = "tool_code" && isGeminiFunctionCall c.data) = true
  · rw [if_pos hany]
    cases hid : (streamFinalState (isR1Mode outputMode) ids chunks).toolCallId with
    | none =>
        have := (h1.mp hid).2
        rw [hany] at this
        exact absurd this (by simp)
    | some cid =>
        have hne := h2 cid hid
        simp [hne]
  · simp only [Bool.not_eq_true] at hany
    rw [hany, if_neg (by simp)]
    cases hid : (streamFinalState (isR1Mode outputMode) ids chunks).toolCallId with
    | none => simp
    | some cid =>
        exfalso
        have h3 := h1.mpr ⟨by simp [initialTState], hany⟩
        have hff : (streamFinalState (isR1Mode outputMode) ids chunks).toolCallId = none := h3
        rw [hid] at hff
        simp at hff

theorem mem_streamDeltaEntries {isR1 : Bool} {ids : Nat → String}
    {chunks : List StreamChunkM} {e : List (String × Option JSON)}
    (h : e ∈ streamDeltaEntries isR1 ids chunks) :
    ∃ s c, (transformChunk isR1 ids s c).2 = some e := by
  unfold streamDeltaEntries at h
  suffices haux : ∀ (cs : List StreamChunkM) (s0 : TState)
      (acc0 : List (List (String × Option JSON))),
      e ∈ (cs.foldl
        (fun (acc : TState × List (List (String × Option JSON))) c =>
          let r := transformChunk isR1 ids acc.1 c
          (r.1, acc.2 ++ r.2.toList)) (s0, acc0)).2 →
      e ∈ acc0 ∨ ∃ s c, (transformChunk isR1 ids s c).2 = some e by
    rcases haux chunks initialTState [] h with h1 | h1
    · simp at h1
    · exact h1
  intro cs
  induction cs with
  | nil => intro s0 acc0 h0; exact Or.inl h0
  | cons c rest ih =>
      intro s0 acc0 h0
      simp only [List.foldl_cons] at h0
      rcases ih _ _ h0 with h1 | h1
      · rcases List.mem_append.mp h1 with h2 | h2
        · exact Or.inl h2
        · right
          refine ⟨s0, c, ?_⟩
          cases hr : (transformChunk isR1 ids s0 c).2 with
          | none => rw [hr] at h2; simp at h2
          | some ee =>
              rw [hr] at h2
              simp at h2
              rw [h2]
      · exact Or.inr h1

set_option maxHeartbeats 1000000 in
theorem transformChunk_r1_no_reasoning_finished (ids : Nat → String) (s : TState)
    (c : StreamChunkM) (s' : TState) (e : List (String × Option JSON))
    (h : transformChunk true ids s c = (s', some e)) :
    ∀ p ∈ e, p.1 ≠ "reasoning_finished" := by
  obtain ⟨t, d⟩ := c
  unfold transformChunk at h
  dsimp only at h
  split_ifs at h <;> repeat' split at h
  all_goals (try simp_all)
  all_goals (obtain ⟨h1, h2⟩ := h; subst h2; intro a b hab hc; subst hc; simp at hab)

theorem jsGet_filterMap_none {e : List (String × Option JSON)} {k : String}
    (h : ∀ p ∈ e, p.1 ≠ k) :
    jsGet (e.filterMap (fun p => p.2.map (fun v => (p.1, v)))) k = none := by
  unfold jsGet
  have hf : List.find? (fun p : String × JSON => decide (p.1 = k))
      (e.filterMap (fun p => p.2.map (fun v => (p.1, v)))) = none := by
    rw [List.find?_eq_none]
    intro x hx
    rcases List.mem_filterMap.mp hx with ⟨p, hp, hfx⟩
    cases hv : p.2 with
    | none => rw [hv] at hfx; simp at hfx
    | some v =>
        rw [hv] at hfx
        simp at hfx
        rw [← hfx]
        simp
        exact h p hp
  rw [hf]
  rfl

/-- C7: in r1 mode no emitted delta ever carries a `reasoning_finished`
field and the terminal frame always carries a top-level
`completion_tokens_details` with `reasoning_tokens: 0`; in every non-r1
mode no frame carries `completion_tokens_details`. -/
theorem claim_C7 (model outputMode chatID : String) (created : Int) (ids : Nat → String)
    (chunks : List StreamChunkM) :
    (isR1Mode outputMode = true →
      (∀ p d, SSEvent.frame p ∈ runTransformer model outputMode chatID created ids chunks →
        payloadDelta p = some d → jsGetField d "reasoning_finished" = none) ∧
      jsGetField (flushPayload (isR1Mode outputMode) chatID created model
          (streamFinalState (isR1Mode outputMode) ids chunks)) "completion_tokens_details" =
        some (.obj [("reasoning_tokens", .num 0)])) ∧
    (isR1Mode outputMode = false →
      ∀ p, SSEvent.frame p ∈ runTransformer model outputMode chatID created ids chunks →
        jsGetField p "completion_tokens_details" = none) := by
  constructor
  · intro hr1
    constructor
    · intro p d hp hd
      unfold runTransformer at hp
      rcases List.mem_append.mp hp with hp1 | hp1
      · rcases List.mem_map.mp hp1 with ⟨entries, hent, hfr⟩
        have hpe : p = mkChunkFrame chatID created model entries := by
          injection hfr.symm
        subst hpe
        have hdelta : payloadDelta (mkChunkFrame chatID created model entries) =
            some (mkDeltaJSON entries) := rfl
        rw [hdelta] at hd
        have hde : d = mkDeltaJSON entries := (Option.some.inj hd).symm
        subst hde
        rcases mem_streamDeltaEntries (hr1 ▸ hent) with ⟨s, c, hc⟩
        have hkeys := transformChunk_r1_no_reasoning_finished ids s c _ entries
          (by rw [← hc])
        show jsGet (entries.filterMap (fun p => p.2.map (fun v => (p.1, v))))
          "reasoning_finished" = none
        exact jsGet_filterMap_none hkeys
      · rcases List.mem_cons.mp hp1 with h2 | h2
        · have hpe : p = flushPayload (isR1Mode outputMode) chatID created model
              (streamFinalState (isR1Mode outputMode) ids chunks) := by
            injection h2
          subst hpe
          have hdelta : payloadDelta (flushPayload (isR1Mode outputMode) chatID created model
              (streamFinalState (isR1Mode outputMode) ids chunks)) = some (.obj []) := rfl
          rw [hdelta] at hd
          have hde : d = .obj [] := (Option.some.inj hd).symm
          subst hde
          rfl
        · rcases List.mem_cons.mp h2 with h3 | h3
          · exact SSEvent.noConfusion h3
          · simp at h3
    · rw [hr1]
      cases hu : (streamFinalState true ids chunks).usageData with
      | none =>
          unfold flushPayload
          rw [hu]
          rfl
      | some u =>
          unfold flushPayload
          rw [hu]
          rfl
  · intro hr0 p hp
    unfold runTransformer at hp
    rcases List.mem_append.mp hp with hp1 | hp1
    · rcases List.mem_map.mp hp1 with ⟨entries, hent, hfr⟩
      have hpe : p = mkChunkFrame chatID created model entries := by
        injection hfr.symm
      subst hpe
      rfl
    · rcases List.mem_cons.mp hp1 with h2 | h2
      · have hpe : p = flushPayload (isR1Mode outputMode) chatID created model
            (streamFinalState (isR1Mode outputMode) ids chunks) := by
          injection h2
        subst hpe
        rw [hr0]
        cases hu : (streamFinalState false ids chunks).usageData with
        | none =>
            unfold flushPayload
            rw [hu]
            rfl
        | some u =>
            unfold flushPayload
            rw [hu]
            rfl
      · rcases List.mem_cons.mp h2 with h3 | h3
        · exact SSEvent.noConfusion h3
        · simp at h3

/-- C7 witness: a concrete r1 stream whose terminal frame carries
`completion_tokens_details.reasoning_tokens = 0` and whose (empty)
terminal delta has no `reasoning_finished`, and a concrete `openai`-mode
frame without `completion_tokens_details`. -/
theorem claim_C7_witness :
    jsGetField (flushPayload (isR1Mode "r1") "cid" 0 "m"
        (streamFinalState (isR1Mode "r1") (fun _ => "u")
          [⟨"reasoning_end", .obj [("finished", .bool true)]⟩]))
      "completion_tokens_details" = some (.obj [("reasoning_tokens", .num 0)]) ∧
    jsGetField (.obj ([] : List (String × JSON))) "reasoning_finished" = none ∧
    jsGetField (mkChunkFrame "cid" 0 "m"
        [("content", some (.str "Hi")), ("role", some (.str "assistant"))])
      "completion_tokens_details" = none := by
  refine ⟨?_, ?_, ?_⟩
  · exact ((claim_C7 "m" "r1" "cid" 0 (fun _ => "u")
      [⟨"reasoning_end", .obj [("finished", .bool true)]⟩]).1 (by decide)).2
  · exact ((claim_C7 "m" "r1" "cid" 0 (fun _ => "u")
      [⟨"reasoning_end", .obj [("finished", .bool true)]⟩]).1 (by decide)).1
      (flushPayload (isR1Mode "r1") "cid" 0 "m"
        (streamFinalState (isR1Mode "r1") (fun _ => "u")
          [⟨"reasoning_end", .obj [("finished", .bool true)]⟩]))
      (.obj []) (by decide) (by decide)
  · exact (claim_C7 "m" "openai" "cid" 0 (fun _ => "u") [⟨"text", .str "Hi"⟩]).2
      (by decide)
      (mkChunkFrame "cid" 0 "m"
        [("content", some (.str "Hi")), ("role", some (.str "assistant"))])
      (by decide)

set_option maxHeartbeats 1000000

/-- C10: a chunk of a recognized kind whose payload fails that kind's
shape check produces no frame and leaves the whole per-stream state (the
first-chunk flag, pending tool-call id and name, accumulated usage, and
the uuid draw index) unchanged. -/
theorem claim_C10 (isR1 : Bool) (ids : Nat → String) (s : TState) (c : StreamChunkM)
    (hrec : recognizedChunkKind c.type = true) (hbad : chunkShapeOK c = false) :
    transformChunk isR1 ids s c = (s, none) := by
  obtain ⟨t, d⟩ := c
  unfold recognizedChunkKind at hrec
  simp only [Bool.or_eq_true, decide_eq_true_eq] at hrec
  unfold chunkShapeOK at hbad
  unfold transformChunk
  dsimp only at hbad hrec ⊢
  rcases hrec with (((((((h | h) | h) | h) | h) | h) | h) | h) | h <;> subst h <;>
    (try (cases d)) <;> simp_all

set_option maxHeartbeats 200000

/-- C10 witness: a text chunk with numeric data, a tool-code chunk
missing `args`, and a usage chunk missing `outputTokens` all produce no
frame and leave a mid-stream state unchanged. -/
theorem claim_C10_witness :
    transformChunk false (fun _ => "u") ⟨false, some "call_x", some (.str "f"), none, 1⟩
        ⟨"text", .num 5⟩ =
      (⟨false, some "call_x", some (.str "f"), none, 1⟩, none) ∧
    transformChunk true (fun _ => "u") ⟨true, none, none, none, 0⟩
        ⟨"tool_code", .obj [("name", .str "f")]⟩ =
      (⟨true, none, none, none, 0⟩, none) ∧
    transformChunk false (fun _ => "u") ⟨true, none, none, none, 0⟩
        ⟨"usage", .obj [("inputTokens", .num 3)]⟩ =
      (⟨true, none, none, none, 0⟩, none) :=
  ⟨claim_C10 false (fun _ => "u") _ ⟨"text", .num 5⟩ (by decide) (by decide),
   claim_C10 true (fun _ => "u") _ ⟨"tool_code", .obj [("name", .str "f")]⟩
     (by decide) (by decide),
   claim_C10 false (fun _ => "u") _ ⟨"usage", .obj [("inputTokens", .num 3)]⟩
     (by decide) (by decide)⟩

set_option maxHeartbeats 2000000

/-- A field absent from the entry list is absent from the built delta. -/
theorem mkDelta_key_none (e : List (String × Option JSON)) {k : String}
    (h : ∀ p ∈ e, p.1 ≠ k) : jsGetField (mkDeltaJSON e) k = none :=
  jsGet_filterMap_none h

/-- Inventory of the frames `transform` can emit: either a frame with no
`content`, `tool_calls` or `role` that leaves `firstChunk` unchanged, or a
first content/tool frame (flag `true → false`) carrying
`role: "assistant"` (with `content: null` when it carries `tool_calls`),
or a later content/tool frame (flag already `false`) with no `role`. -/
theorem transformChunk_delta_cases (isR1 : Bool) (ids : Nat → String) (s : TState)
    (c : StreamChunkM) (s' : TState) (e : List (String × Option JSON))
    (h : transformChunk isR1 ids s c = (s', some e)) :
    (s'.firstChunk = s.firstChunk ∧
     jsGetField (mkDeltaJSON e) "content" = none ∧
     jsGetField (mkDeltaJSON e) "tool_calls" = none ∧
     jsGetField (mkDeltaJSON e) "role" = none) ∨
    (s.firstChunk = true ∧ s'.firstChunk = false ∧
     ((jsGetField (mkDeltaJSON e) "content").isSome = true ∨
      (jsGetField (mkDeltaJSON e) "tool_calls").isSome = true) ∧
     jsGetField (mkDeltaJSON e) "role" = some (.str "assistant") ∧
     ((jsGetField (mkDeltaJSON e) "tool_calls").isSome = true →
       jsGetField (mkDeltaJSON e) "content" = some .null)) ∨
    (s.firstChunk = false ∧ s'.firstChunk = false ∧
     ((jsGetField (mkDeltaJSON e) "content").isSome = true ∨
      (jsGetField (mkDeltaJSON e) "tool_calls").isSome = true) ∧
     jsGetField (mkDeltaJSON e) "role" = none) := by
  obtain ⟨t, d⟩ := c
  cases isR1 <;>
    (unfold transformChunk at h
     dsimp only at h
     split_ifs at h <;> repeat' split at h) <;>
    (try (exfalso; simp_all; done)) <;>
    (simp only [Prod.mk.injEq, Option.some.injEq] at h
     obtain ⟨hs, he⟩ := h
     subst he
     subst hs) <;>
    (first
      | (left
         refine ⟨?_, mkDelta_key_none _ ?_, mkDelta_key_none _ ?_,
           mkDelta_key_none _ ?_⟩ <;> (first | rfl | simp)
         done)
      | (right
         left
         refine ⟨?_, ?_, ?_, ?_, ?_⟩ <;> simp_all [mkDeltaJSON, jsGetField, jsGet]
         done)
      | (right
         right
         refine ⟨?_, ?_, ?_, ?_⟩ <;> simp_all [mkDeltaJSON, jsGetField, jsGet]
         done))

set_option maxHeartbeats 200000

set_option maxHeartbeats 2000000

theorem transformChunk_none_flag (isR1 : Bool) (ids : Nat → String) (s : TState)
    (c : StreamChunkM) (s' : TState)
    (h : transformChunk isR1 ids s c = (s', none)) :
    s'.firstChunk = s.firstChunk := by
  obtain ⟨t, d⟩ := c
  unfold transformChunk at h
  dsimp only at h
  split_ifs at h
  all_goals repeat' split at h
  all_goals (injection h with h1 h2; first | exact Option.noConfusion h2 | rw [← h1])

set_option maxHeartbeats 200000

set_option maxHeartbeats 2000000

/-- The stream fold preserves the role invariant: while `firstChunk` is
still `true` every emitted delta so far is roleless and carries no
`content`/`tool_calls`; once it is `false` the deltas decompose around
one starting frame carrying `role: "assistant"`. -/
theorem streamRole_aux (isR1 : Bool) (ids : Nat → String) :
    ∀ (cs : List StreamChunkM) (s0 : TState)
      (ds0 : List (List (String × Option JSON))),
      ((s0.firstChunk = true ∧ ∀ d ∈ ds0.map mkDeltaJSON, deltaNoStart d) ∨
       (s0.firstChunk = false ∧ ∃ pre dd post,
          ds0.map mkDeltaJSON = pre ++ dd :: post ∧
          (∀ d ∈ pre, deltaNoStart d) ∧ deltaStarts dd ∧
          deltaRoleAssistant dd ∧ deltaToolContentNull dd ∧
          (∀ d ∈ post, jsGetField d "role" = none))) →
      (((cs.foldl (streamStep isR1 ids) (s0, ds0)).1.firstChunk = true ∧
        ∀ d ∈ (cs.foldl (streamStep isR1 ids) (s0, ds0)).2.map mkDeltaJSON,
          deltaNoStart d) ∨
       ((cs.foldl (streamStep isR1 ids) (s0, ds0)).1.firstChunk = false ∧
        ∃ pre dd post,
          (cs.foldl (streamStep isR1 ids) (s0, ds0)).2.map mkDeltaJSON =
            pre ++ dd :: post ∧
          (∀ d ∈ pre, deltaNoStart d) ∧ deltaStarts dd ∧
          deltaRoleAssistant dd ∧ deltaToolContentNull dd ∧
          (∀ d ∈ post, jsGetField d "role" = none))) := by
  intro cs
  induction cs with
  | nil => intro s0 ds0 hInv; exact hInv
  | cons c rest ih =>
    intro s0 ds0 hInv
    rw [List.foldl_cons]
    rcases hr : transformChunk isR1 ids s0 c with ⟨s1, eo⟩
    have hstep : streamStep isR1 ids (s0, ds0) c = (s1, ds0 ++ eo.toList) := by
      simp [streamStep, hr]
    rw [hstep]
    cases eo with
    | none =>
      have hf : s1.firstChunk = s0.firstChunk :=
        transformChunk_none_flag isR1 ids s0 c s1 hr
      apply ih
      simp only [Option.toList_none, List.append_nil]
      rcases hInv with ⟨h1, h2⟩ | ⟨h1, h2⟩
      · exact Or.inl ⟨hf.trans h1, h2⟩
      · exact Or.inr ⟨hf.trans h1, h2⟩
    | some e =>
      have hcases := transformChunk_delta_cases isR1 ids s0 c s1 e hr
      apply ih
      simp only [Option.toList_some, List.map_append, List.map_cons, List.map_nil]
      rcases hcases with ⟨hf, hc, ht, hrl⟩ | ⟨hf0, hf, hstart, hrole, htool⟩ |
        ⟨hf0, hf, hstart, hrl⟩
      · rcases hInv with ⟨h1, h2⟩ |
          ⟨h1, pre, dd, post, hdec, hpre, hst, hro, htl, hpost⟩
        · refine Or.inl ⟨hf.trans h1, ?_⟩
          intro d hd
          rcases List.mem_append.mp hd with hd | hd
          · exact h2 d hd
          · simp only [List.mem_singleton] at hd
            subst hd
            exact ⟨hc, ht, hrl⟩
        · refine Or.inr ⟨hf.trans h1, pre, dd, post ++ [mkDeltaJSON e], ?_,
            hpre, hst, hro, htl, ?_⟩
          · rw [hdec]
            simp
          · intro d hd
            rcases List.mem_append.mp hd with hd | hd
            · exact hpost d hd
            · simp only [List.mem_singleton] at hd
              subst hd
              exact hrl
      · rcases hInv with ⟨h1, h2⟩ | ⟨h1, -⟩
        · exact Or.inr ⟨hf, ds0.map mkDeltaJSON, mkDeltaJSON e, [], rfl, h2,
            hstart, hrole, htool, fun d hd => absurd hd (List.not_mem_nil d)⟩
        · rw [h1] at hf0
          exact Bool.noConfusion hf0
      · rcases hInv with ⟨h1, -⟩ |
          ⟨h1, pre, dd, post, hdec, hpre, hst, hro, htl, hpost⟩
        · rw [h1] at hf0
          exact Bool.noConfusion hf0
        · refine Or.inr ⟨hf, pre, dd, post ++ [mkDeltaJSON e], ?_,
            hpre, hst, hro, htl, ?_⟩
          · rw [hdec]
            simp
          · intro d hd
            rcases List.mem_append.mp hd with hd | hd
            · exact hpost d hd
            · simp only [List.mem_singleton] at hd
              subst hd
              exact hrl

set_option maxHeartbeats 200000

/-- C8: within one stream, either no emitted delta carries
`content`/`tool_calls`/`role` at all, or the emitted deltas split as
`pre ++ dd :: post` where the deltas of `pre` carry none of those keys,
`dd` — the very first delta arising from a text, thinking_content or
tool_code chunk — carries `role: "assistant"` (and `content: null` when
it carries `tool_calls`), and no delta of `post` carries a role field. -/
theorem claim_C8 (isR1 : Bool) (ids : Nat → String) (chunks : List StreamChunkM) :
    (∀ d ∈ (streamDeltaEntries isR1 ids chunks).map mkDeltaJSON, deltaNoStart d) ∨
    (∃ pre dd post,
      (streamDeltaEntries isR1 ids chunks).map mkDeltaJSON = pre ++ dd :: post ∧
      (∀ d ∈ pre, deltaNoStart d) ∧ deltaStarts dd ∧
      deltaRoleAssistant dd ∧ deltaToolContentNull dd ∧
      (∀ d ∈ post, jsGetField d "role" = none)) := by
  have h := streamRole_aux isR1 ids chunks initialTState []
    (Or.inl ⟨rfl, by simp⟩)
  rcases h with ⟨-, h2⟩ | ⟨-, h2⟩
  · exact Or.inl h2
  · exact Or.inr h2

/-- On the stream reasoning, text "Hi", text "!" (openai mode) some
emitted delta carries both `role: "assistant"` and content. -/
theorem claim_C8_witness :
    ∃ d, d ∈ (streamDeltaEntries false (fun _ => "u")
        [⟨"reasoning", .obj [("reasoning", .str "th")]⟩,
         ⟨"text", .str "Hi"⟩, ⟨"text", .str "!"⟩]).map mkDeltaJSON ∧
      deltaRoleAssistant d ∧ deltaStarts d := by
  rcases claim_C8 false (fun _ => "u")
      [⟨"reasoning", .obj [("reasoning", .str "th")]⟩,
       ⟨"text", .str "Hi"⟩, ⟨"text", .str "!"⟩] with
    h | ⟨pre, dd, post, hdec, -, hst, hro, -, -⟩
  · exact absurd (h (.obj [("content", .str "Hi"), ("role", .str "assistant")])
      (by decide)).1 (by decide)
  · exact ⟨dd, by rw [hdec]; exact List.mem_append_right _ (List.mem_cons_self _ _),
      hro, hst⟩

set_option maxRecDepth 4000

/-- Same chat id and timestamp, different per-call uuid draws: the byte
output of the two instances differs on a tool_code chunk. -/
theorem claim_C9_counterexample :
    (runTransformer "m" "openai" "chatcmpl-X" 0 (fun _ => "aaaa")
        [⟨"tool_code", .obj [("name", .str "f"), ("args", .obj [])]⟩]).map encodeSSE ≠
      (runTransformer "m" "openai" "chatcmpl-X" 0 (fun _ => "bbbb")
        [⟨"tool_code", .obj [("name", .str "f"), ("args", .obj [])]⟩]).map encodeSSE := by
  decide

set_option maxRecDepth 512

theorem scrubDelta_mkDelta_list (e : List (String × Option JSON)) :
    (e.filterMap (fun p => p.2.map (fun v => (p.1, v)))).map
      (fun p => if p.1 = "tool_calls" then
          ("tool_calls",
           match p.2 with
           | JSON.arr cs => JSON.arr (cs.map scrubToolCallId)
           | v => v)
        else p) =
    (scrubEntries e).filterMap (fun p => p.2.map (fun v => (p.1, v))) := by
  induction e with
  | nil => rfl
  | cons p rest ih =>
    obtain ⟨k, v⟩ := p
    by_cases hk : k = "tool_calls" <;> cases v <;>
      simp [scrubEntries, scrubEntryVal, hk, List.filterMap_cons, ih]

/-- Scrubbing the serialized delta is scrubbing the entries first. -/
theorem scrubDelta_mkDelta (e : List (String × Option JSON)) :
    scrubDeltaJSON (mkDeltaJSON e) = mkDeltaJSON (scrubEntries e) :=
  congrArg JSON.obj (scrubDelta_mkDelta_list e)

set_option maxHeartbeats 2000000

/-- `firstChunk` after a chunk depends only on the flag and the chunk. -/
theorem transformChunk_firstChunk (isR1 : Bool) (ids : Nat → String) (s : TState)
    (c : StreamChunkM) :
    (transformChunk isR1 ids s c).1.firstChunk = (s.firstChunk && !chunkStarts c) := by
  obtain ⟨t, d⟩ := c
  unfold transformChunk chunkStarts
  dsimp only
  split_ifs <;> repeat' split
  all_goals (first | rfl | simp_all)

/-- `usageData` after a chunk: set by a well-shaped usage chunk, else
unchanged. -/
theorem transformChunk_usageData (isR1 : Bool) (ids : Nat → String) (s : TState)
    (c : StreamChunkM) :
    (transformChunk isR1 ids s c).1.usageData =
      (if c.type = "usage" ∧ isUsageData c.data = true then some c.data
       else s.usageData) := by
  obtain ⟨t, d⟩ := c
  unfold transformChunk
  dsimp only
  split_ifs <;> repeat' split
  all_goals (first | rfl | simp_all)

/-- The scrubbed emission of a chunk is a function of the chunk and the
`firstChunk` flag alone — the uuid draw is scrubbed away. -/
theorem transformChunk_scrubEmit (isR1 : Bool) (ids : Nat → String) (s : TState)
    (c : StreamChunkM) :
    (transformChunk isR1 ids s c).2.map scrubEntries = canonEmit isR1 c s.firstChunk := by
  obtain ⟨t, d⟩ := c
  unfold transformChunk canonEmit
  dsimp only
  split_ifs <;> repeat' split
  all_goals (first | rfl | simp_all [scrubEntries, scrubEntryVal, scrubToolCallId])

set_option maxHeartbeats 200000

theorem option_toList_map_scrub (o : Option (List (String × Option JSON))) :
    o.toList.map scrubEntries = (o.map scrubEntries).toList := by
  cases o <;> rfl

/-- Two runs of the same chunks stay related: equal flags, equal usage
data, related tool-call ids, and scrub-equal emitted entries. -/
theorem foldl_scrub (isR1 : Bool) (ids₁ ids₂ : Nat → String) :
    ∀ (cs : List StreamChunkM) (s₁ s₂ : TState)
      (acc₁ acc₂ : List (List (String × Option JSON))),
      s₁.firstChunk = s₂.firstChunk → s₁.usageData = s₂.usageData →
      toolIdRel s₁ s₂ → acc₁.map scrubEntries = acc₂.map scrubEntries →
      (cs.foldl (streamStep isR1 ids₁) (s₁, acc₁)).1.firstChunk =
        (cs.foldl (streamStep isR1 ids₂) (s₂, acc₂)).1.firstChunk ∧
      (cs.foldl (streamStep isR1 ids₁) (s₁, acc₁)).1.usageData =
        (cs.foldl (streamStep isR1 ids₂) (s₂, acc₂)).1.usageData ∧
      toolIdRel (cs.foldl (streamStep isR1 ids₁) (s₁, acc₁)).1
        (cs.foldl (streamStep isR1 ids₂) (s₂, acc₂)).1 ∧
      (cs.foldl (streamStep isR1 ids₁) (s₁, acc₁)).2.map scrubEntries =
        (cs.foldl (streamStep isR1 ids₂) (s₂, acc₂)).2.map scrubEntries := by
  intro cs
  induction cs with
  | nil => intro s₁ s₂ acc₁ acc₂ hf hu ht ha; exact ⟨hf, hu, ht, ha⟩
  | cons c rest ih =>
    intro s₁ s₂ acc₁ acc₂ hf hu ht ha
    rw [List.foldl_cons, List.foldl_cons]
    apply ih
    · show (transformChunk isR1 ids₁ s₁ c).1.firstChunk =
        (transformChunk isR1 ids₂ s₂ c).1.firstChunk
      rw [transformChunk_firstChunk, transformChunk_firstChunk, hf]
    · show (transformChunk isR1 ids₁ s₁ c).1.usageData =
        (transformChunk isR1 ids₂ s₂ c).1.usageData
      rw [transformChunk_usageData, transformChunk_usageData, hu]
    · show toolIdRel (transformChunk isR1 ids₁ s₁ c).1 (transformChunk isR1 ids₂ s₂ c).1
      unfold toolIdRel
      rw [transformChunk_toolCallId, transformChunk_toolCallId]
      by_cases hg : (c.type = "tool_code" && isGeminiFunctionCall c.data) = true
      · rw [if_pos hg, if_pos hg]
        exact Or.inr ⟨_, _, rfl, rfl⟩
      · rw [if_neg hg, if_neg hg]
        exact ht
    · show (acc₁ ++ (transformChunk isR1 ids₁ s₁ c).2.toList).map scrubEntries =
        (acc₂ ++ (transformChunk isR1 ids₂ s₂ c).2.toList).map scrubEntries
      rw [List.map_append, List.map_append, ha]
      have h1 := transformChunk_scrubEmit isR1 ids₁ s₁ c
      have h2 := transformChunk_scrubEmit isR1 ids₂ s₂ c
      rw [hf] at h1
      rw [option_toList_map_scrub, option_toList_map_scrub, h1, h2]

theorem streamDeltaEntries_eq_fold (isR1 : Bool) (ids : Nat → String)
    (chunks : List StreamChunkM) :
    streamDeltaEntries isR1 ids chunks =
      (chunks.foldl (streamStep isR1 ids) (initialTState, [])).2 := rfl

theorem streamFinalState_eq_fold_aux (isR1 : Bool) (ids : Nat → String) :
    ∀ (cs : List StreamChunkM) (s : TState)
      (acc : List (List (String × Option JSON))),
      cs.foldl (fun s c => (transformChunk isR1 ids s c).1) s =
        (cs.foldl (streamStep isR1 ids) (s, acc)).1 := by
  intro cs
  induction cs with
  | nil => intro s acc; rfl
  | cons c rest ih =>
    intro s acc
    rw [List.foldl_cons, List.foldl_cons]
    exact ih _ _

theorem streamFinalState_eq_fold (isR1 : Bool) (ids : Nat → String)
    (chunks : List StreamChunkM) :
    streamFinalState isR1 ids chunks =
      (chunks.foldl (streamStep isR1 ids) (initialTState, [])).1 :=
  streamFinalState_eq_fold_aux isR1 ids chunks initialTState []

/-- Scrubbing a non-terminal frame blanks its id and timestamp and scrubs
its delta entries. -/
theorem scrub_mkChunkFrame (chatID : String) (created : Int) (model : String)
    (e : List (String × Option JSON)) :
    scrubPayload (mkChunkFrame chatID created model e) =
      mkChunkFrame "" 0 model (scrubEntries e) := by
  simp [scrubPayload, mkChunkFrame, scrubChoice, scrubDelta_mkDelta]

/-- Scrubbing the terminal frame only blanks its id and timestamp. -/
theorem scrub_flushPayload (isR1 : Bool) (chatID : String) (created : Int)
    (model : String) (s : TState) :
    scrubPayload (flushPayload isR1 chatID created model s) =
      flushPayload isR1 "" 0 model s := by
  cases hu : s.usageData <;> cases isR1 <;>
    simp [scrubPayload, flushPayload, scrubChoice, scrubDeltaJSON, hu]

/-- The terminal frame agrees across related final states. -/
theorem flushPayload_congr (isR1 : Bool) (model : String) (s₁ s₂ : TState)
    (hu : s₁.usageData = s₂.usageData) (ht : toolIdRel s₁ s₂) :
    flushPayload isR1 "" 0 model s₁ = flushPayload isR1 "" 0 model s₂ := by
  unfold flushPayload
  rcases ht with ⟨h1, h2⟩ | ⟨x₁, x₂, h1, h2⟩ <;>
    rw [hu, h1, h2] <;>
    simp [call_id_ne_empty]

/-- C9 amended: two independent stream instances over the same chunk
sequence agree after blanking the stream id, the created timestamp, and
the per-call opaque tool-call ids. -/
theorem claim_C9 (model outputMode chatID₁ chatID₂ : String)
    (created₁ created₂ : Int) (ids₁ ids₂ : Nat → String)
    (chunks : List StreamChunkM) :
    (runTransformer model outputMode chatID₁ created₁ ids₁ chunks).map scrubEvent =
      (runTransformer model outputMode chatID₂ created₂ ids₂ chunks).map scrubEvent := by
  obtain ⟨hf, hu, ht, hd⟩ := foldl_scrub (isR1Mode outputMode) ids₁ ids₂ chunks
    initialTState initialTState [] [] rfl rfl (Or.inl ⟨rfl, rfl⟩) rfl
  unfold runTransformer
  rw [List.map_append, List.map_append]
  congr 1
  · have key : ∀ (cid : String) (t : Int)
        (Ds : List (List (String × Option JSON))),
        (Ds.map (fun e => SSEvent.frame (mkChunkFrame cid t model e))).map scrubEvent =
          (Ds.map scrubEntries).map
            (fun e => SSEvent.frame (mkChunkFrame "" 0 model e)) := by
      intro cid t Ds
      rw [List.map_map]
      have hfun : (scrubEvent ∘ fun e => SSEvent.frame (mkChunkFrame cid t model e)) =
          ((fun e => SSEvent.frame (mkChunkFrame "" 0 model e)) ∘ scrubEntries) := by
        funext e
        show SSEvent.frame (scrubPayload (mkChunkFrame cid t model e)) = _
        rw [scrub_mkChunkFrame]
        rfl
      rw [hfun, ← List.map_map]
    rw [key chatID₁ created₁ _, key chatID₂ created₂ _]
    rw [streamDeltaEntries_eq_fold, streamDeltaEntries_eq_fold, hd]
  · simp only [List.map_cons, List.map_nil, scrubEvent]
    rw [scrub_flushPayload, scrub_flushPayload]
    rw [streamFinalState_eq_fold, streamFinalState_eq_fold]
    rw [flushPayload_congr (isR1Mode outputMode) model _ _ hu ht]
